import Mathlib

/-!
Verification development for the kidshell core engine.

The Python sources under `src/kidshell/core` are shallowly embedded below:
strings become `String`/`List Char`, dictionaries become association lists,
stateful handler methods become explicit state-passing functions, and the
external `pydantic_monty` sandbox is a parameter (`MontyLib`) so that
properties of the pre-check pipeline hold for every possible interpreter.
Python `float` values are modelled as exact rationals; the claims under
study only exercise exact arithmetic.
-/

set_option autoImplicit false
set_option maxHeartbeats 1000000
set_option maxRecDepth 40000

namespace KidShell

/-! ### Python-style character and string helpers -/

/-- Whitespace characters recognised by Python `str.strip` and `\s` (ASCII). -/
def isPySpace (c : Char) : Bool :=
  c = ' ' || c = '\t' || c = '\n' || c = '\r' || c = '\x0b' || c = '\x0c'

/-- Word characters for `\b` boundaries in `re` (`[A-Za-z0-9_]`). -/
def isWordChar (c : Char) : Bool :=
  c.isAlpha || c.isDigit || c = '_'

/-- `str.strip()` on a character list. -/
def pyStrip (l : List Char) : List Char :=
  ((l.dropWhile isPySpace).reverse.dropWhile isPySpace).reverse

/-- Does `l` start with the pattern `pat`? -/
def startsWithChars : List Char → List Char → Bool
  | [], _ => true
  | _ :: _, [] => false
  | p :: ps, c :: cs => p = c && startsWithChars ps cs

/-- Substring containment (`needle in haystack` in Python). -/
def containsSub (needle : List Char) : List Char → Bool
  | [] => startsWithChars needle []
  | c :: cs => startsWithChars needle (c :: cs) || containsSub needle cs

/-- A `\b` boundary holds before the current position when the previous
character is absent or not a word character. -/
def boundaryOk : Option Char → Bool
  | none => true
  | some p => !isWordChar p

/-- Is there a `\b`-delimited occurrence of `tok` in the list, given the
character immediately before the current position (`prev`)?  `tok` is assumed
to consist of word characters, as all denylisted tokens do. -/
def hasWholeTokenAux (tok : List Char) : Option Char → List Char → Bool
  | prev, [] =>
    -- an empty remainder can only match the empty token at a boundary
    (tok.isEmpty && boundaryOk prev)
  | prev, c :: cs =>
    (boundaryOk prev &&
      startsWithChars tok (c :: cs) &&
      (match (c :: cs).drop tok.length with
        | [] => true
        | d :: _ => !isWordChar d)) ||
    hasWholeTokenAux tok (some c) cs

/-- Model of `re.search(rf"\b{token}\b", s)` returning a Boolean. -/
def hasWholeToken (tok s : List Char) : Bool :=
  hasWholeTokenAux tok none s

/-- Lower-case a character list (`str.lower`, ASCII). -/
def lowerChars (l : List Char) : List Char :=
  l.map Char.toLower

/-- Value of a digit string. -/
def digitsVal (l : List Char) : Nat :=
  l.foldl (fun n c => n * 10 + (c.toNat - '0'.toNat)) 0

/-! ### Values

Monty results are Python values: `int`, `float`, `str`, `bool`.
Floats are modelled as exact rationals. -/

inductive Value where
  | int (n : Int)
  | float (q : ℚ)
  | str (s : String)
  | bool (b : Bool)
  deriving DecidableEq, Repr

/-- `isinstance(v, (int, float))` — note Python `bool` is a subclass of `int`. -/
def Value.isNumeric : Value → Bool
  | .int _ => true
  | .float _ => true
  | .bool _ => true
  | .str _ => false

/-- Python `str(v)`.  Integral floats print with a trailing `.0`; other
rationals stand in for the float repr (the claims only exercise integers). -/
def Value.pyStr : Value → String
  | .int n => toString n
  | .float q => if q.den = 1 then toString q.num ++ ".0" else toString q
  | .str s => s
  | .bool b => if b then "True" else "False"

/-! ### Runtime errors of the sandboxed interpreter -/

inductive RunError where
  | divByZero
  | nameUndefined (n : String)
  | badSyn (msg : String)
  | timeLimit
  | memLimit
  | unsupported (msg : String)
  deriving DecidableEq, Repr

/-- Message text used when normalising interpreter errors (mirrors the
substring checks in `SafeMathEvaluator.evaluate`). -/
def RunError.msg : RunError → String
  | .divByZero => "division by zero"
  | .nameUndefined n => "NameError: name " ++ n ++ " is not defined"
  | .badSyn m => "SyntaxError: " ++ m
  | .timeLimit => "time limit exceeded"
  | .memLimit => "memory limit exceeded"
  | .unsupported m => m

/-! ### SafeMathError taxonomy (`safe_math.py`) -/

inductive SMErr where
  | emptyExpression
  | tooLong
  | unsafePattern (tok : String)
  | controlFlow
  | exponentTooLarge
  | divisionByZero
  | timeout
  | memoryLimit
  | numberTooLarge
  | stringTooLong
  | invalid (msg : String)
  deriving DecidableEq, Repr

/-- User-facing message of each error, mirroring the Python strings; used by
`MathHandler` to route `TryNext`. -/
def SMErr.msg : SMErr → String
  | .emptyExpression => "Empty expression"
  | .tooLong => "Expression too long"
  | .unsafePattern tok => "Unsafe pattern: " ++ tok
  | .controlFlow => "Complex control flow not allowed"
  | .exponentTooLarge => "Exponent too large"
  | .divisionByZero => "Division by zero"
  | .timeout => "Execution timeout"
  | .memoryLimit => "Memory limit exceeded"
  | .numberTooLarge => "Number too large"
  | .stringTooLong => "String too long"
  | .invalid m => "Invalid expression: " ++ m

namespace SafeMathEvaluator

def MAX_NUMBER : Nat := 10 ^ 30
def MAX_STRING_LENGTH : Nat := 1000

def BLOCKED_TOKENS : List String :=
  ["import", "exec", "eval", "compile", "open", "input", "raw_input",
   "globals", "locals", "vars", "dir", "getattr", "setattr", "delattr",
   "hasattr"]

def BLOCKED_CONTROL_FLOW_KEYWORDS : List String :=
  ["for", "while", "def", "class", "lambda", "if"]

/-- Allowlisted function names registered with the interpreter. -/
def SAFE_FUNCTION_NAMES : List String :=
  ["abs", "round", "min", "max", "sum", "len", "int", "float", "str", "bool",
   "pow", "sin", "cos", "tan", "asin", "acos", "atan", "atan2", "radians",
   "degrees", "sqrt", "log", "log2", "log10", "exp", "hypot", "gcd", "lcm",
   "factorial", "comb", "perm", "percent", "mean", "median", "mode", "stdev",
   "pstdev", "variance", "pvariance", "floor", "ceil"]

/-- Built-in constants.  The Python values are floats (π, e, τ, φ); the
rational stand-ins below keep the model executable — no claim under study
evaluates a constant, only the names matter (for cache keys and the
interpreter's input list).  `SCIENCE_CONSTANTS` is modelled as empty (the
`scipy` import is environment-dependent and guarded by `try/except`). -/
def MATH_CONSTANTS : List (String × Value) :=
  [("pi", .float (314159265 / 100000000 : ℚ)),
   ("e", .float (271828182 / 100000000 : ℚ)),
   ("tau", .float (628318530 / 100000000 : ℚ)),
   ("phi", .float (161803398 / 100000000 : ℚ))]

/-- Model of `SafeMathEvaluator._find_blocked_pattern`: the lowered text is
scanned first for the `__` substring, then for each denylisted token as a
whole word. -/
def find_blocked_pattern (expression : String) : Option String :=
  let lowered := lowerChars expression.toList
  if containsSub ['_', '_'] lowered then some "__"
  else
    BLOCKED_TOKENS.findSome? fun tok =>
      if hasWholeToken tok.toList lowered then some tok else none

/-- Model of `SafeMathEvaluator._contains_blocked_control_flow`
(`re.IGNORECASE` word search for each keyword). -/
def contains_blocked_control_flow (expression : String) : Bool :=
  BLOCKED_CONTROL_FLOW_KEYWORDS.any fun kw =>
    hasWholeToken kw.toList (lowerChars expression.toList)

/-- After a `**`, try to match `\s*([-+]?\d+)\s*$` and return the exponent
(an optional single sign, at least one digit, then only whitespace). -/
def parseExpTail (l : List Char) : Option Int :=
  let l1 := l.dropWhile isPySpace
  let sign : Int := if l1.headD ' ' = '-' then -1 else 1
  let l2 := if l1.headD ' ' = '+' ∨ l1.headD ' ' = '-' then l1.tail else l1
  let ds := l2.takeWhile Char.isDigit
  if ds.isEmpty then none
  else if ((l2.dropWhile Char.isDigit).dropWhile isPySpace).isEmpty then
    some (sign * (digitsVal ds : Int))
  else none

/-- Model of `re.search(r"\*\*\s*([-+]?\d+)\s*$", expression)`: the first
position whose `**` is followed only by an optional-signed integer and
whitespace. -/
def findTrailingExponent : List Char → Option Int
  | [] => none
  | c :: rest =>
    if c = '*' then
      match rest with
      | '*' :: tail =>
        match parseExpTail tail with
        | some e => some e
        | none => findTrailingExponent rest
      | _ => findTrailingExponent rest
    else findTrailingExponent rest

/-! ### Dictionaries as association lists -/

end SafeMathEvaluator

/-- `d[k] = v` on a Python dict modelled as an association list: existing key
keeps its position, new key is appended. -/
def dictSet {κ α : Type} [DecidableEq κ] : List (κ × α) → κ → α → List (κ × α)
  | [], k, v => [(k, v)]
  | (k', v') :: rest, k, v =>
    if k' = k then (k, v) :: rest else (k', v') :: dictSet rest k v

/-- `base.update(upd)` on dicts. -/
def dictUpdate {κ α : Type} [DecidableEq κ] (base upd : List (κ × α)) : List (κ × α) :=
  upd.foldl (fun m kv => dictSet m kv.1 kv.2) base

/-- `d.get(k)` (first binding wins; dict keys are unique). -/
def dictGet? {κ α : Type} [DecidableEq κ] : List (κ × α) → κ → Option α
  | [], _ => none
  | (k', v) :: rest, k => if k' = k then some v else dictGet? rest k

/-- `d.get(k, default)`. -/
def dictGetD {κ α : Type} [DecidableEq κ] (m : List (κ × α)) (k : κ) (d : α) : α :=
  (dictGet? m k).getD d

/-- `k in d`. -/
def dictHasKey {κ α : Type} [DecidableEq κ] (m : List (κ × α)) (k : κ) : Bool :=
  (dictGet? m k).isSome

namespace SafeMathEvaluator

/-- Insertion into a key-sorted list (Python `sorted` over `(key, value)`
pairs; dict keys are unique so the key alone decides the order). -/
def insertSorted (p : String × Value) : List (String × Value) → List (String × Value)
  | [] => [p]
  | q :: rest => if p.1 < q.1 then p :: q :: rest else q :: insertSorted p rest

/-- Sort bindings by key. -/
def sortByKey (m : List (String × Value)) : List (String × Value) :=
  m.foldr insertSorted []

/-- Model of `SafeMathEvaluator._build_cache_key`.  All modelled values are
hashable, so `_cache_safe_value` is the identity here. -/
def build_cache_key (expression : String) (inputs : List (String × Value)) :
    String × List (String × Value) :=
  (expression, sortByKey inputs)

/-! ### The evaluator, parameterised by the sandboxed interpreter -/

end SafeMathEvaluator

/-- Interface of the external `pydantic_monty` sandbox: `compile` builds an
interpreter instance from the expression and the registered input/function
names, `run` executes it against concrete inputs.  Keeping it abstract lets
the pre-check theorems quantify over every possible interpreter. -/
structure MontyLib (M : Type) where
  compile : String → List String → List String → M
  run : M → List (String × Value) → Except RunError Value

/-- Mutable state of a `SafeMathEvaluator` instance: the caller-supplied
variables and the compiled-instance cache `_monty_cache`. -/
structure EvalState (M : Type) where
  vars : List (String × Value)
  cache : List ((String × List (String × Value)) × M)

namespace SafeMathEvaluator

/-- Association lookup in the compiled-instance cache. -/
def cacheFind? {M : Type} (cache : List ((String × List (String × Value)) × M))
    (key : String × List (String × Value)) : Option M :=
  match cache with
  | [] => none
  | (k, m) :: rest => if k = key then some m else cacheFind? rest key

/-- Normalisation of interpreter errors into the `SafeMathError` taxonomy
(the `except` clauses of `SafeMathEvaluator.evaluate`). -/
def normalizeRunError (e : RunError) : SMErr :=
  let m := (lowerChars e.msg.toList)
  if containsSub "division by zero".toList m then .divisionByZero
  else if containsSub "time limit exceeded".toList m ||
      containsSub "timeouterror".toList m then .timeout
  else if containsSub "memory limit exceeded".toList m ||
      containsSub "memoryerror".toList m then .memoryLimit
  else .invalid e.msg

/-- Run a compiled instance against concrete inputs, normalising errors and
applying the result-size post-checks of `evaluate`. -/
def runAndCheck {M : Type} (lib : MontyLib M) (m : M)
    (inputs : List (String × Value)) : Except SMErr Value :=
  match lib.run m inputs with
  | .error e => .error (normalizeRunError e)
  | .ok v =>
    match v with
    | .int n => if n.natAbs > MAX_NUMBER then .error .numberTooLarge else .ok v
    | .float q => if |q| > (MAX_NUMBER : ℚ) then .error .numberTooLarge else .ok v
    | .str s => if s.length > MAX_STRING_LENGTH then .error .stringTooLong else .ok v
    | .bool _ => .ok v

/-- The compile-and-run core of `evaluate` (the `try` block after all
pre-checks): cache lookup keyed by `build_cache_key`, compilation on a miss
(the new instance is stored in the cache), execution with error
normalisation and post-checks. -/
def evalCore {M : Type} (lib : MontyLib M) (st : EvalState M) (expression : String) :
    Except SMErr Value × EvalState M :=
  match cacheFind? st.cache
      (build_cache_key expression (dictUpdate MATH_CONSTANTS st.vars)) with
  | some m => (runAndCheck lib m (dictUpdate MATH_CONSTANTS st.vars), st)
  | none =>
    (runAndCheck lib
      (lib.compile expression
        ((dictUpdate MATH_CONSTANTS st.vars).map (fun p => p.1)) SAFE_FUNCTION_NAMES)
      (dictUpdate MATH_CONSTANTS st.vars),
     { st with cache := st.cache ++
        [(build_cache_key expression (dictUpdate MATH_CONSTANTS st.vars),
          lib.compile expression
            ((dictUpdate MATH_CONSTANTS st.vars).map (fun p => p.1)) SAFE_FUNCTION_NAMES)] })

/-- The pre-checks of `SafeMathEvaluator.evaluate` in source order (empty,
length, denylist, control flow, trailing exponent).  They depend only on the
expression text, never on the evaluator state or the interpreter. -/
def prechecks (expression : String) : Option SMErr :=
  if pyStrip expression.toList = [] then some .emptyExpression
  else if expression.toList.length > MAX_STRING_LENGTH then some .tooLong
  else
    match find_blocked_pattern expression with
    | some tok => some (.unsafePattern tok)
    | none =>
      if contains_blocked_control_flow expression then some .controlFlow
      else
        match findTrailingExponent expression.toList with
        | some e => if e.natAbs > 100 then some .exponentTooLarge else none
        | none => none

/-- Model of `SafeMathEvaluator.evaluate`: the pre-checks, then the
sandboxed evaluation. -/
def evaluate {M : Type} (lib : MontyLib M) (st : EvalState M) (expression : String) :
    Except SMErr Value × EvalState M :=
  match prechecks expression with
  | some err => (.error err, st)
  | none => evalCore lib st expression

end SafeMathEvaluator

/-! ### A concrete interpreter instance

Modelled from the spec: the external `pydantic_monty` sandbox (not part of
this repository) "compiles/evaluates a restricted arithmetic-and-functions
expression language against a host-provided variable/function allowlist".
The model below implements the arithmetic fragment the claims exercise:
integer literals, identifiers resolved in the inputs mapping, unary `+`/`-`,
binary `+ - * /` and `**`, and parentheses.  Function calls, float literals
and string operations are outside this fragment and are reported as
unsupported; resource limits are irrelevant to a terminating pure model. -/

inductive Tok where
  | num (n : Nat)
  | ident (s : String)
  | plus
  | minus
  | star
  | slash
  | dstar
  | lparen
  | rparen
  | bad
  deriving DecidableEq, Repr

/-- Tokeniser for the modelled expression language (`fuel` dominates the
input length, so the `0` case is unreachable). -/
def tokenizeAux : Nat → List Char → List Tok
  | 0, _ => [Tok.bad]
  | _, [] => []
  | f + 1, c :: cs =>
    if isPySpace c then tokenizeAux f cs
    else if c.isDigit then
      Tok.num (digitsVal ((c :: cs).takeWhile Char.isDigit)) ::
        tokenizeAux f (cs.dropWhile Char.isDigit)
    else if c.isAlpha || c = '_' then
      Tok.ident (String.mk ((c :: cs).takeWhile isWordChar)) ::
        tokenizeAux f (cs.dropWhile isWordChar)
    else
      match c, cs with
      | '*', '*' :: rest => Tok.dstar :: tokenizeAux f rest
      | '*', _ => Tok.star :: tokenizeAux f cs
      | '+', _ => Tok.plus :: tokenizeAux f cs
      | '-', _ => Tok.minus :: tokenizeAux f cs
      | '/', _ => Tok.slash :: tokenizeAux f cs
      | '(', _ => Tok.lparen :: tokenizeAux f cs
      | ')', _ => Tok.rparen :: tokenizeAux f cs
      | _, _ => [Tok.bad]

def tokenize (l : List Char) : List Tok :=
  tokenizeAux (l.length + 1) l

/-- Python integer view of a value (`bool` is a subclass of `int`). -/
def Value.intVal? : Value → Option Int
  | .int n => some n
  | .bool b => some (if b then 1 else 0)
  | _ => none

/-- Rational view of a numeric value. -/
def Value.toQ? : Value → Option ℚ
  | .int n => some (n : ℚ)
  | .float q => some q
  | .bool b => some (if b then 1 else 0)
  | .str _ => none

/-- Addition/subtraction/multiplication: `int ∘ int → int`, any float makes
the result a float. -/
def arithV (f : ℚ → ℚ → ℚ) (g : Int → Int → Int) (a b : Value) :
    Except RunError Value :=
  match a.intVal?, b.intVal? with
  | some n, some m => .ok (.int (g n m))
  | _, _ =>
    match a.toQ?, b.toQ? with
    | some x, some y => .ok (.float (f x y))
    | _, _ => .error (.unsupported "unsupported operand types")

def addV (a b : Value) : Except RunError Value :=
  arithV (· + ·) (· + ·) a b

def subV (a b : Value) : Except RunError Value :=
  arithV (· - ·) (· - ·) a b

def mulV (a b : Value) : Except RunError Value :=
  arithV (· * ·) (· * ·) a b

/-- True division always yields a float in Python. -/
def divV (a b : Value) : Except RunError Value :=
  match a.toQ?, b.toQ? with
  | some x, some y =>
    if y = 0 then .error .divByZero else .ok (.float (x / y))
  | _, _ => .error (.unsupported "unsupported operand types")

/-- Exponentiation with an integer exponent. -/
def powV (a b : Value) : Except RunError Value :=
  match b.intVal? with
  | none => .error (.unsupported "unsupported exponent")
  | some e =>
    match a.intVal? with
    | some n =>
      if 0 ≤ e then .ok (.int (n ^ e.natAbs))
      else if n = 0 then .error .divByZero
      else .ok (.float ((n : ℚ) ^ e.natAbs)⁻¹)
    | none =>
      match a.toQ? with
      | some x =>
        if 0 ≤ e then .ok (.float (x ^ e.natAbs))
        else if x = 0 then .error .divByZero
        else .ok (.float (x ^ e.natAbs)⁻¹)
      | none => .error (.unsupported "unsupported operand types")

def negV (a : Value) : Except RunError Value :=
  match a.intVal? with
  | some n => .ok (.int (-n))
  | none =>
    match a with
    | .float q => .ok (.float (-q))
    | _ => .error (.unsupported "unsupported operand types")

mutual

/-- `+`/`-` level (lowest precedence). -/
def parseExpr : Nat → List (String × Value) → List Tok →
    Except RunError (Value × List Tok)
  | 0, _, _ => .error (.badSyn "expression too deep")
  | f + 1, env, ts => do
    let (v, r) ← parseTerm f env ts
    parseExprRest f env v r

def parseExprRest : Nat → List (String × Value) → Value → List Tok →
    Except RunError (Value × List Tok)
  | 0, _, _, _ => .error (.badSyn "expression too deep")
  | f + 1, env, v, ts =>
    match ts with
    | .plus :: rest => do
      let (w, r) ← parseTerm f env rest
      let s ← addV v w
      parseExprRest f env s r
    | .minus :: rest => do
      let (w, r) ← parseTerm f env rest
      let s ← subV v w
      parseExprRest f env s r
    | _ => .ok (v, ts)

/-- `*`/`/` level. -/
def parseTerm : Nat → List (String × Value) → List Tok →
    Except RunError (Value × List Tok)
  | 0, _, _ => .error (.badSyn "expression too deep")
  | f + 1, env, ts => do
    let (v, r) ← parseUnary f env ts
    parseTermRest f env v r

def parseTermRest : Nat → List (String × Value) → Value → List Tok →
    Except RunError (Value × List Tok)
  | 0, _, _, _ => .error (.badSyn "expression too deep")
  | f + 1, env, v, ts =>
    match ts with
    | .star :: rest => do
      let (w, r) ← parseUnary f env rest
      let s ← mulV v w
      parseTermRest f env s r
    | .slash :: rest => do
      let (w, r) ← parseUnary f env rest
      let s ← divV v w
      parseTermRest f env s r
    | _ => .ok (v, ts)

/-- Unary `+`/`-`. -/
def parseUnary : Nat → List (String × Value) → List Tok →
    Except RunError (Value × List Tok)
  | 0, _, _ => .error (.badSyn "expression too deep")
  | f + 1, env, ts =>
    match ts with
    | .minus :: rest => do
      let (v, r) ← parseUnary f env rest
      let n ← negV v
      .ok (n, r)
    | .plus :: rest => parseUnary f env rest
    | _ => parsePower f env ts

/-- `**` (binds tighter than unary minus on its left, right-associative). -/
def parsePower : Nat → List (String × Value) → List Tok →
    Except RunError (Value × List Tok)
  | 0, _, _ => .error (.badSyn "expression too deep")
  | f + 1, env, ts => do
    let (b, r) ← parseAtom f env ts
    match r with
    | .dstar :: r2 => do
      let (e, r3) ← parseUnary f env r2
      let p ← powV b e
      .ok (p, r3)
    | _ => .ok (b, r)

def parseAtom : Nat → List (String × Value) → List Tok →
    Except RunError (Value × List Tok)
  | 0, _, _ => .error (.badSyn "expression too deep")
  | f + 1, env, ts =>
    match ts with
    | .num n :: rest => .ok (.int (n : Int), rest)
    | .ident s :: rest =>
      match rest with
      | .lparen :: _ => .error (.unsupported ("function call: " ++ s))
      | _ =>
        match dictGet? env s with
        | some v => .ok (v, rest)
        | none => .error (.nameUndefined s)
    | .lparen :: rest => do
      let (v, r) ← parseExpr f env rest
      match r with
      | .rparen :: r2 => .ok (v, r2)
      | _ => .error (.badSyn "expected closing parenthesis")
    | _ => .error (.badSyn "invalid expression")

end

/-- Run the modelled interpreter on an expression against concrete inputs. -/
def montyRun (env : List (String × Value)) (expression : String) :
    Except RunError Value := do
  let ts := tokenize expression.toList
  if ts.contains Tok.bad then .error (.badSyn "invalid token")
  else
    let (v, rest) ← parseExpr (5 * ts.length + 10) env ts
    if rest.isEmpty then .ok v else .error (.badSyn "trailing input")

/-- The concrete `MontyLib`: a compiled instance is just the expression text
(the model interprets it directly at run time). -/
def montyLib : MontyLib String :=
  { compile := fun e _ _ => e
    run := fun e inputs => montyRun inputs e }

/-- `SafeMathEvaluator.evaluate` instantiated with the modelled sandbox —
the form the handlers use. -/
def montyEvaluate (st : EvalState String) (expression : String) :
    Except SMErr Value × EvalState String :=
  SafeMathEvaluator.evaluate montyLib st expression

/-- Build a `SafeMathEvaluator(variables=...)` instance: empty cache. -/
def mkEvaluator (vs : List (String × Value)) : EvalState String :=
  { vars := vs, cache := [] }

/-! ### Number facts (`handlers/number_tree.py`) -/

def MAX_NUMBER_TREE_INPUT : Nat := 10000

/-- Python `str.isdigit` (ASCII): non-empty, all digits. -/
def pyIsDigitStr (t : String) : Bool :=
  !t.isEmpty && t.toList.all Char.isDigit

/-- Model of `can_build_number_tree`. -/
def can_build_number_tree (input_text : String) : Bool :=
  pyIsDigitStr input_text &&
    1 ≤ digitsVal input_text.toList && digitsVal input_text.toList ≤ MAX_NUMBER_TREE_INPUT

/-- Model of `find_factor_pairs`: `(i, n / i)` for each divisor
`i ∈ range(1, int(n**0.5) + 1)`.  The Python float bound is exact on the
accepted range `1 ≤ n ≤ 10000`; `i ≤ int(n**0.5)` is expressed as
`i * i ≤ n`, which selects the same indices. -/
def find_factor_pairs (number : Nat) : List (Nat × Nat) :=
  (List.range' 1 number).filterMap fun i =>
    if i * i ≤ number ∧ number % i = 0 then some (i, number / i) else none

/-- The number-facts payload of `build_number_tree_content`.  The
`properties`/`operations` entries are display-only strings built with float
formatting (`:.2f`, `:.1f`) and are omitted from the model; the claims only
consume the `number` and `factors` fields and the payload's presence. -/
structure NumberFacts where
  number : Nat
  factors : List (Nat × Nat)
  deriving DecidableEq, Repr

/-- Model of `build_number_tree_content` (see `NumberFacts`). -/
def build_number_tree_content (number : Nat) : NumberFacts :=
  { number := number, factors := find_factor_pairs number }

/-! ### Session state

Modelled from the spec: `core/models.py` is not under `src/`; the `Session`
record follows spec §3 — environments, optional current quiz, attempt
counters, streak/solved counters, achievements and custom data.  The
`next_quiz_id` field is the id supply realising "id is unique per
generation" (§3): every generated quiz consumes the counter, and all live
quiz ids are below it.  `activity_log` stands in for the unspecified
`add_activity` record keeping (kind and input only). -/

/-- A value of `symbols_env`: a number or the opaque symbolic placeholder a
`sympy` symbol provides. -/
inductive SymVal where
  | num (v : Value)
  | placeholder (name : String)
  deriving DecidableEq, Repr

/-- Modelled from the spec: quiz record §3
`{id, question, answer, difficulty, operation, operands}`; the generated
problems are integer arithmetic, so `answer : Int`; `operation`/`operands`
do not appear in any claim and are omitted. -/
structure Quiz where
  id : Nat
  question : String
  answer : Int
  difficulty : Nat
  deriving DecidableEq, Repr

structure Session where
  math_env : List (String × Value)
  symbols_env : List (String × SymVal)
  current_quiz : Option Quiz
  quiz_attempts : List (Nat × Nat)
  problems_solved : Nat
  current_streak : Nat
  achievements : List String
  custom_data : List (String × String)
  activity_log : List (String × String)
  next_quiz_id : Nat
  deriving DecidableEq, Repr

/-- Modelled from the spec: `Session.add_activity` (in the absent
`models.py`) records the turn; only the kind and input are kept. -/
def Session.add_activity (s : Session) (kind input : String) : Session :=
  { s with activity_log := s.activity_log ++ [(kind, input)] }

/-- Modelled from the spec: a fresh session — `math_env` "always contains
`last_number`" (§3). -/
def freshSession : Session :=
  { math_env := [("last_number", .int 0)]
    symbols_env := []
    current_quiz := none
    quiz_attempts := []
    problems_solved := 0
    current_streak := 0
    achievements := []
    custom_data := []
    activity_log := []
    next_quiz_id := 0 }

/-! ### Responses

Modelled from the spec: `core/types.py` is not under `src/`; `Response` is
the immutable tagged output `{type, content, metadata}` of §3 with the
closed `type` enumeration.  `content` payloads are modelled per producing
handler, with the fields the handlers under `src/` actually build. -/

inductive ResponseType where
  | MATH_RESULT
  | TREE_DISPLAY
  | QUIZ
  | ACHIEVEMENT
  | SYMBOL_RESULT
  | EMOJI
  | COLOR
  | LOOP_RESULT
  | ERROR
  | TEXT
  deriving DecidableEq, Repr

inductive Content where
  /-- Correct-answer quiz payload (`quiz.py` lines 81–93). -/
  | quizCorrect (question : String) (answer : Int) (quiz : Quiz)
      (next_quiz : Quiz) (streak : Nat) (total_solved : Nat)
  /-- Wrong-answer quiz payload (`quiz.py` lines 128–140). -/
  | quizWrong (user_answer : String) (hint : String) (encouragement : String)
      (quiz : Quiz) (attempts : Nat) (number_facts : Option NumberFacts)
  /-- `MathHandler` payload (`math.py` lines 106–119). -/
  | mathResult (expression : String) (result : Value) (note : Option String)
      (display : Option String)
  | treeDisplay (facts : NumberFacts)
  /-- Found/created/assigned symbol payload (`symbols.py`). -/
  | symbolResult (symbol : String) (value : Value) (action : String)
  /-- Symbol-expression payload (`symbols.py` lines 196–202). -/
  | symbolExprResult (expression : String) (result : Value)
      (display : Option String)
  | textContent (s : String)
  | errorContent (s : String)
  deriving DecidableEq, Repr

structure Response where
  type : ResponseType
  content : Content
  metadata : List (String × String)
  deriving DecidableEq, Repr

/-- A handler's outcome: a response, or the `TryNext` control signal. -/
inductive HandlerOut where
  | resp (r : Response)
  | tryNext (msg : String)
  deriving DecidableEq, Repr

/-! ### Small string helpers shared by the handlers -/

/-- `s.startswith(pre)`. -/
def strStartsWith (s pre : String) : Bool :=
  startsWithChars pre.toList s.toList

/-- `s.strip()` on `String`. -/
def pyStripStr (s : String) : String :=
  String.mk (pyStrip s.toList)

/-- Python `str.isalpha` (ASCII): non-empty, all letters. -/
def pyIsAlphaStr (t : String) : Bool :=
  !t.isEmpty && t.toList.all Char.isAlpha

/-- `str.lower` on `String` (character-wise ASCII lowering). -/
def pyLower (s : String) : String :=
  String.mk (lowerChars s.toList)

/-! ### Quiz service

Modelled from the spec: `core/services.py` is not under `src/`. -/

namespace QuizService

/-- Modelled from the spec: "Answer matching is exact string-equality
between the submitted … text and the stored answer's string form" (§4.3). -/
def check_answer (quiz : Quiz) (answer : String) : Bool :=
  answer = toString quiz.answer

/-- Modelled from the spec: `QuizService.generate_math_question` "picks an
arithmetic operation weighted by a running difficulty level …, producing …
a problem with a unique id and a textual question" (§4.3, §3).  Uniqueness
is realised by the caller-supplied `fresh` counter (`Session.next_quiz_id`);
the concrete operands stand in for the unspecified random choice. -/
def generate_math_question (difficulty : Nat) (fresh : Nat) : Quiz :=
  let a := difficulty * 10 + fresh % 7
  let b := fresh % 5 + 1
  { id := fresh
    question := toString a ++ " + " ++ toString b ++ " = ?"
    answer := (a : Int) + (b : Int)
    difficulty := difficulty }

end QuizService

/-! ### Quiz handler (`handlers/quiz.py`) -/

namespace QuizHandler

/-- `ANSWER_PATTERN = ^[+-]?\d+(?:\.\d+)?$` as a whole-string match. -/
def answerShaped (t : String) : Bool :=
  let l := t.toList
  let l1 := match l with
    | '+' :: r => r
    | '-' :: r => r
    | _ => l
  let ds := l1.takeWhile Char.isDigit
  let rest := l1.dropWhile Char.isDigit
  !ds.isEmpty &&
    (match rest with
      | [] => true
      | '.' :: fs => !fs.isEmpty && fs.all Char.isDigit
      | _ => false)

/-- Model of `QuizHandler.can_handle`. -/
def can_handle (input_text : String) (s : Session) : Bool :=
  match s.current_quiz with
  | none => false
  | some _ =>
    answerShaped input_text ||
      strStartsWith input_text "answer:" || strStartsWith input_text "ans:"

/-- The clue computed on the 3rd and later attempts (`quiz.py` 101–112);
`answer` is always an integer in the model, matching the `isinstance`
check.  Python `//` is floor division, hence `Int.fdiv`. -/
def clueFor (answer : Int) : String :=
  if answer < 10 then "The answer is less than 10."
  else if answer < 50 then
    "The answer is between " ++ toString (answer.fdiv 10 * 10) ++ " and " ++
      toString ((answer.fdiv 10 + 1) * 10) ++ "."
  else "The answer starts with " ++ (toString answer).take 1 ++ "."

/-- Model of `QuizHandler._get_difficulty_level`. -/
def get_difficulty_level (s : Session) : Nat :=
  if s.problems_solved < 5 then 1
  else if s.problems_solved < 15 then 2
  else if s.problems_solved < 30 then 3
  else 4

/-- Answer extraction from the explicit `answer:`/`ans:` formats
(`quiz.py` 54–58). -/
def extract_answer (input_text : String) : String :=
  if strStartsWith input_text "answer:" then pyStripStr (input_text.drop 7)
  else if strStartsWith input_text "ans:" then pyStripStr (input_text.drop 4)
  else input_text

/-- Model of `QuizHandler.handle`: answer extraction, attempt counting, and
the correct/wrong branches, in source order. -/
def handle (input_text : String) (s : Session) : Response × Session :=
  match s.current_quiz with
  | none =>
    ({ type := .ERROR
       content := .errorContent "No active quiz."
       metadata := [("input", input_text)] }, s)
  | some quiz =>
    let answer := extract_answer input_text
    let user_answer_text := answer
    let is_correct := QuizService.check_answer quiz answer
    let quiz_id := quiz.id
    let s1 : Session :=
      { s with quiz_attempts :=
          dictSet s.quiz_attempts quiz_id (dictGetD s.quiz_attempts quiz_id 0 + 1) }
    if is_correct then
      let s2 : Session :=
        { s1 with problems_solved := s1.problems_solved + 1
                  current_streak := s1.current_streak + 1
                  current_quiz := none }
      let s3 := s2.add_activity "quiz" input_text
      let next_quiz := QuizService.generate_math_question (get_difficulty_level s3) s3.next_quiz_id
      let s4 : Session :=
        { s3 with current_quiz := some next_quiz, next_quiz_id := s3.next_quiz_id + 1 }
      ({ type := .QUIZ
         content := .quizCorrect quiz.question quiz.answer quiz next_quiz
           s4.current_streak s4.problems_solved
         metadata := [("quiz_id", toString quiz_id)] }, s4)
    else
      let s2 := (s1.add_activity "quiz" input_text)
      let s3 : Session := { s2 with current_streak := 0 }
      let attempts := dictGetD s3.quiz_attempts quiz_id 0
      let clue : Option String :=
        if attempts ≥ 3 then some (clueFor quiz.answer) else none
      let numeric_answer := pyStripStr user_answer_text
      let number_facts : Option NumberFacts :=
        if can_build_number_tree numeric_answer then
          some (build_number_tree_content (digitsVal numeric_answer.toList))
        else none
      let hint :=
        match clue with
        | some c => "Great persistence! Helpful clue: " ++ c
        | none => "Great attempt! Keep going on this one."
      let encouragement :=
        match number_facts with
        | some nf =>
          "Nice thinking with " ++ toString nf.number ++
            "! Let's explore it while we keep going."
        | none => "Nice thinking."
      ({ type := .QUIZ
         content := .quizWrong input_text hint encouragement quiz attempts number_facts
         metadata := [("quiz_id", toString quiz_id)] }, s3)

end QuizHandler

/-! ### Math handler (`handlers/math.py`) -/

/-- `re.sub(r"\s+", " ", l)`: every whitespace run becomes one space
(`fuel` dominates the length, so the `0` case is unreachable). -/
def collapseWsAux : Nat → List Char → List Char
  | 0, l => l
  | _, [] => []
  | f + 1, c :: cs =>
    if isPySpace c then ' ' :: collapseWsAux f (cs.dropWhile isPySpace)
    else c :: collapseWsAux f cs

def collapseWs (l : List Char) : List Char :=
  collapseWsAux (l.length + 1) l

/-- Left context of `MULTIPLY_X_PATTERN`: `(?<=[\d\)])`. -/
def isMulLeft (c : Char) : Bool :=
  c.isDigit || c = ')'

/-- Right context of `MULTIPLY_X_PATTERN`: `(?=[\d\(])`. -/
def isMulRight (c : Char) : Bool :=
  c.isDigit || c = '('

def isXChar (c : Char) : Bool :=
  c = 'x' || c = '×'

/-- Does `MULTIPLY_X_PATTERN = (?<=[\d\)])\s*[x×]\s*(?=[\d\(])` match
somewhere in `l`?  Direct model of the regex: positions `i < j < k` with a
digit/`)` at `i`, an `x`/`×` at `j`, a digit/`(` at `k`, and only whitespace
strictly between `i,j` and between `j,k`. -/
def mulAliasOccurs (l : List Char) : Bool :=
  (List.range l.length).any fun i =>
    (List.range l.length).any fun j =>
      (List.range l.length).any fun k =>
        decide (i < j) && decide (j < k) &&
          isMulLeft (l.getD i ' ') && isXChar (l.getD j ' ') &&
          isMulRight (l.getD k ' ') &&
          ((l.drop (i + 1)).take (j - i - 1)).all isPySpace &&
          ((l.drop (j + 1)).take (k - j - 1)).all isPySpace

/-- `MULTIPLY_X_PATTERN.sub(" * ", l)`: left-to-right non-overlapping
replacement; the lookaround characters are not consumed.  `prev` is the
original character just before the scan position. -/
def mulAliasSubAux : Nat → Option Char → List Char → List Char
  | 0, _, l => l
  | _, _, [] => []
  | f + 1, prev, c :: cs =>
    let t := c :: cs
    let matchRest : Option (List Char) :=
      match prev with
      | some p =>
        if isMulLeft p then
          match t.dropWhile isPySpace with
          | x :: rest2 =>
            if isXChar x then
              let rest3 := rest2.dropWhile isPySpace
              match rest3 with
              | b :: _ => if isMulRight b then some rest3 else none
              | [] => none
            else none
          | [] => none
        else none
      | none => none
    match matchRest with
    | some rest3 => ' ' :: '*' :: ' ' :: mulAliasSubAux f (some ' ') rest3
    | none => c :: mulAliasSubAux f (some c) cs

def mulAliasSub (l : List Char) : List Char :=
  mulAliasSubAux (l.length + 1) none l

namespace MathHandler

/-- Model of `MathHandler._normalize_multiplication_aliases`. -/
def normalize_multiplication_aliases (expression : String) : String × Bool :=
  if !mulAliasOccurs expression.toList then (expression, false)
  else (String.mk (pyStrip (collapseWs (mulAliasSub expression.toList))), true)

/-- `any(op in input_text for op in "+-*/")`. -/
def containsOp (s : String) : Bool :=
  s.toList.any fun c => c = '+' || c = '-' || c = '*' || c = '/'

/-- Model of `MathHandler.can_handle`. -/
def can_handle (input_text : String) (_s : Session) : Bool :=
  if containsOp input_text then true
  else if mulAliasOccurs input_text.toList then true
  else if (match input_text.toList with
      | c :: _ => c = '+' || c = '-' || c = '*' || c = '/'
      | [] => false) then true
  else if input_text.toList.contains '=' && !strStartsWith input_text "=" then
    let parts := input_text.splitOn "="
    if parts.length = 2 &&
        pyIsAlphaStr (pyStripStr (parts.headD "")) &&
        (pyStripStr (parts.headD "")).length ≤ 5 then false
    else true
  else false

/-- Count of maximal digit runs (`re.findall(r"\d+", expr)`). -/
def countDigitRunsAux : Nat → List Char → Nat
  | 0, _ => 0
  | _, [] => 0
  | f + 1, c :: cs =>
    if c.isDigit then 1 + countDigitRunsAux f (cs.dropWhile Char.isDigit)
    else countDigitRunsAux f cs

/-- Model of `MathHandler._calculate_complexity` (can be `-1` on an
expression with no numbers, hence `Int`). -/
def calculate_complexity (expr : String) : Int :=
  let ops := (expr.toList.filter fun c =>
    c = '+' || c = '-' || c = '*' || c = '/').length
  let numbers := countDigitRunsAux (expr.toList.length + 1) expr.toList
  (ops : Int) + ((numbers : Int) - 1)

def noteText : String :=
  "Interpreted 'x' as multiplication here. Tip: x can also be a variable (for example: x = 3)."

/-- `input_text.split("=", 1)` when `"="` is present: text before the first
`=` and everything after it. -/
def splitFirstEq (t : String) : String × String :=
  let sp := t.toList.span fun c => c != '='
  (String.mk sp.1, String.mk (sp.2.drop 1))

/-- The `except SafeMathError` clause of `MathHandler.handle`: unknown-name
failures on alphabetic input become `TryNext`, everything else an `ERROR`
response. -/
def mathError (input_text : String) (e : SMErr) (s : Session) :
    HandlerOut × Session :=
  let et := lowerChars e.msg.toList
  if input_text.toList.any Char.isAlpha &&
      (containsSub "nameerror".toList et || containsSub "not defined".toList et) then
    (.tryNext e.msg, s)
  else
    (.resp { type := .ERROR
             content := .errorContent ("Math error: " ++ e.msg)
             metadata := [("expression", input_text)] }, s)

/-- The quiz-solve check of `MathHandler.handle` (`math.py` 100–103): when
a quiz is active and the result's string form equals the stored answer's
string form, bump the counters (the quiz itself is untouched). -/
def quiz_solve_check (result : Value) (s : Session) : Session :=
  match s.current_quiz with
  | some q =>
    if result.pyStr = toString q.answer then
      { s with problems_solved := s.problems_solved + 1
               current_streak := s.current_streak + 1 }
    else s
  | none => s

/-- The tail of `MathHandler.handle` after evaluation (`math.py` 97–128):
activity, quiz-solve check, and the `MATH_RESULT` response. -/
def mathFinish (input_text clean_expr : String) (interpreted_multiply_x : Bool)
    (result : Value) (s : Session) : HandlerOut × Session :=
  let hasVars := clean_expr.toList.any Char.isAlpha
  (.resp { type := .MATH_RESULT
           content := .mathResult clean_expr result
             (if interpreted_multiply_x then some noteText else none)
             (if hasVars then some (clean_expr ++ " = " ++ result.pyStr) else none)
           metadata :=
             [("complexity", toString (calculate_complexity clean_expr)),
              ("has_variables", if hasVars then "True" else "False")] },
   quiz_solve_check result (s.add_activity "math" input_text))

/-- The normalisation pipeline of `MathHandler.handle` (`math.py` 57–63):
whitespace collapsing, `x`-alias rewriting, and leading-operator resolution
via `last_number`.  Returns the expression to evaluate and the
`interpreted_multiply_x` flag. -/
def resolved_expression (input_text : String) (s : Session) : String × Bool :=
  let clean0 := String.mk (collapseWs (pyStrip input_text.toList))
  let na := normalize_multiplication_aliases clean0
  let clean_expr : String :=
    match na.1.toList with
    | c :: _ =>
      if c = '+' || c = '-' || c = '*' || c = '/' then
        (dictGetD s.math_env "last_number" (.int 0)).pyStr ++ " " ++ na.1
      else na.1
    | [] => na.1
  (clean_expr, na.2)

/-- `isinstance(result, float) and int(result) == result and
result <= sys.maxsize` → convert to `int` (`math.py` 90–91). -/
def float_to_int_result (r0 : Value) : Value :=
  match r0 with
  | .float q =>
    if q.den = 1 ∧ q.num ≤ (9223372036854775807 : Int) then .int q.num else r0
  | _ => r0

/-- Is this input routed to the assignment branch (`math.py` 71)? -/
def isAssignment (clean_expr : String) : Bool :=
  clean_expr.toList.contains '=' && !strStartsWith clean_expr "="

/-- The assignment branch of `MathHandler.handle` (`math.py` 72–84): the
right-hand side is evaluated and stored under the variable name;
`last_number` is not updated here. -/
def assignBranch (input_text clean_expr : String) (flag : Bool) (s : Session) :
    HandlerOut × Session :=
  match (montyEvaluate (mkEvaluator s.math_env)
      (pyStripStr (splitFirstEq clean_expr).2)).1 with
  | .error e => mathError input_text e s
  | .ok result =>
    mathFinish input_text clean_expr flag result
      { s with math_env :=
          dictSet s.math_env (pyStripStr (splitFirstEq clean_expr).1) result }

/-- The calculation branch of `MathHandler.handle` (`math.py` 86–95):
evaluate, convert an integral float, and record `last_number` when the
result is numeric. -/
def calcBranch (input_text clean_expr : String) (flag : Bool) (s : Session) :
    HandlerOut × Session :=
  match (montyEvaluate (mkEvaluator s.math_env) clean_expr).1 with
  | .error e => mathError input_text e s
  | .ok r0 =>
    mathFinish input_text clean_expr flag (float_to_int_result r0)
      (if (float_to_int_result r0).isNumeric then
        { s with math_env := dictSet s.math_env "last_number" (float_to_int_result r0) }
      else s)

/-- Model of `MathHandler.handle`: whitespace normalisation, `x`-alias
rewriting, leading-operator resolution via `last_number`, then the
assignment or calculation branch. -/
def handle (input_text : String) (s : Session) : HandlerOut × Session :=
  if isAssignment (resolved_expression input_text s).1 then
    assignBranch input_text (resolved_expression input_text s).1
      (resolved_expression input_text s).2 s
  else
    calcBranch input_text (resolved_expression input_text s).1
      (resolved_expression input_text s).2 s

end MathHandler

/-! ### Number tree handler (`handlers/number_tree.py`) -/

namespace NumberTreeHandler

def can_handle (input_text : String) (_s : Session) : Bool :=
  can_build_number_tree input_text

/-- Model of `NumberTreeHandler.handle` (the `except` clause is unreachable
on accepted input). -/
def handle (input_text : String) (s : Session) : Response × Session :=
  let number := digitsVal input_text.toList
  let content := build_number_tree_content number
  let s1 := s.add_activity "number_tree" input_text
  let s2 : Session :=
    { s1 with math_env := dictSet s1.math_env "last_number" (.int (number : Int)) }
  ({ type := .TREE_DISPLAY
     content := .treeDisplay content
     metadata := [("is_prime", if content.factors.length = 1 then "True" else "False")] },
   s2)

end NumberTreeHandler

/-! ### Symbol handler (`handlers/symbols.py`) -/

namespace SymbolHandler

/-- Model of `SymbolHandler._reserved_identifiers`. -/
def reserved_identifiers : List String :=
  SafeMathEvaluator.SAFE_FUNCTION_NAMES ++
    SafeMathEvaluator.MATH_CONSTANTS.map fun p => p.1

/-- `IDENTIFIER_PATTERN.findall`: maximal word-character runs whose first
character is a letter or underscore (a run starting with a digit has no
`\b` before its letters, so it yields nothing). -/
def extractIdentifiersAux : Nat → List Char → List String
  | 0, _ => []
  | _, [] => []
  | f + 1, c :: cs =>
    if isWordChar c then
      (if c.isAlpha || c = '_' then
        [String.mk ((c :: cs).takeWhile isWordChar)]
      else []) ++ extractIdentifiersAux f (cs.dropWhile isWordChar)
    else extractIdentifiersAux f cs

def extract_identifiers (t : String) : List String :=
  extractIdentifiersAux (t.toList.length + 1) t.toList

/-- Model of `SymbolHandler._numeric_env`: numeric values from `math_env`
then `symbols_env` (later sources override). -/
def numeric_env (s : Session) : List (String × Value) :=
  let base := s.math_env.foldl
    (fun m kv => if kv.2.isNumeric then dictSet m kv.1 kv.2 else m) []
  s.symbols_env.foldl
    (fun m kv =>
      match kv.2 with
      | .num v => if v.isNumeric then dictSet m kv.1 v else m
      | .placeholder _ => m)
    base

/-- Model of `SymbolHandler._undefined_identifiers` (order-preserving,
duplicate-free). -/
def undefined_identifiers (expression : String) (s : Session) : List String :=
  let ne := numeric_env s
  (extract_identifiers expression).foldl
    (fun acc name =>
      if reserved_identifiers.contains name || dictHasKey ne name then acc
      else if acc.contains name then acc
      else acc ++ [name])
    []

/-- Model of `SymbolHandler._coaching_response`. -/
def coaching_response (name expression : String) : Response :=
  { type := .TEXT
    content := .textContent
      ("Let's set a value for " ++ name ++ " first. Try: " ++ name ++
        " = 3. Then try: " ++ name ++ " + 2.")
    metadata := [("coaching", "True"), ("symbol", name), ("expression", expression)] }

/-- Model of `SymbolHandler._format_symbol_value` (`str` on a `sympy`
symbol is its name). -/
def format_symbol_value : SymVal → Value
  | .num w => if w.isNumeric then w else .str w.pyStr
  | .placeholder n => .str n

/-- Model of `SymbolHandler.can_handle`. -/
def can_handle (input_text : String) (s : Session) : Bool :=
  if pyIsAlphaStr input_text && input_text.length < 5 then
    !dictHasKey s.math_env input_text
  else
    (if input_text.toList.contains '=' then
      let parts := MathHandler.splitFirstEq input_text
      let var_name := pyStripStr parts.1
      pyIsAlphaStr var_name && var_name.length ≤ 10
    else false) ||
    (if !MathHandler.containsOp input_text then false
     else
       let identifiers := extract_identifiers input_text
       if identifiers.isEmpty then false
       else
         let non_reserved := identifiers.filter fun n => !reserved_identifiers.contains n
         if non_reserved.isEmpty then false
         else if non_reserved.any fun n => dictHasKey s.symbols_env n then true
         else non_reserved.any fun n => pyIsAlphaStr n && n.length ≤ 10)

/-- `isinstance(result, float) and int(result) == result` → convert to
`int` (`symbols.py` 189–190; no `sys.maxsize` bound here). -/
def symbol_float_to_int (r0 : Value) : Value :=
  match r0 with
  | .float q => if q.den = 1 then .int q.num else r0
  | _ => r0

/-- The symbol-expression branch of `SymbolHandler.handle`
(`symbols.py` 171–207). -/
def exprBranch (input_text : String) (s : Session) : Response × Session :=
  match undefined_identifiers input_text s with
  | u :: _ => (coaching_response u input_text, s)
  | [] =>
    match (montyEvaluate (mkEvaluator (numeric_env s)) input_text).1 with
    | .error e =>
      ({ type := .ERROR
         content := .errorContent ("Symbol error: " ++ e.msg)
         metadata := [("expression", input_text)] }, s)
    | .ok r0 =>
      let result := symbol_float_to_int r0
      let s1 : Session :=
        if result.isNumeric then
          { s with math_env := dictSet s.math_env "last_number" result }
        else s
      let s2 := s1.add_activity "symbol_expr" input_text
      let display :=
        if result.isNumeric then some (input_text ++ " = " ++ result.pyStr) else none
      ({ type := .SYMBOL_RESULT
         content := .symbolExprResult input_text result display
         metadata := [] }, s2)

/-- Model of `SymbolHandler.handle`: single-symbol lookup/creation, then
assignment, then symbol expression (each guard falls through on failure). -/
def handle (input_text : String) (s : Session) : Response × Session :=
  if pyIsAlphaStr input_text && input_text.length < 5 then
    match dictGet? s.symbols_env input_text with
    | some sv =>
      let value := format_symbol_value sv
      ({ type := .SYMBOL_RESULT
         content := .symbolResult input_text value "found"
         metadata := [] }, s.add_activity "symbol_lookup" input_text)
    | none =>
      let s1 : Session :=
        { s with symbols_env := dictSet s.symbols_env input_text (.placeholder input_text) }
      ({ type := .SYMBOL_RESULT
         content := .symbolResult input_text (.str input_text) "created"
         metadata := [] }, s1.add_activity "symbol_create" input_text)
  else if input_text.toList.contains '=' then
    let parts := MathHandler.splitFirstEq input_text
    let var_name := pyStripStr parts.1
    let value_str := pyStripStr parts.2
    if pyIsAlphaStr var_name && var_name.length ≤ 10 then
      match (undefined_identifiers value_str s).filter (fun n => n ≠ var_name) with
      | u :: _ => (coaching_response u input_text, s)
      | [] =>
        match (montyEvaluate (mkEvaluator (numeric_env s)) value_str).1 with
        | .error e =>
          ({ type := .ERROR
             content := .errorContent ("Symbol error: " ++ e.msg)
             metadata := [("expression", input_text)] }, s)
        | .ok value =>
          let s1 : Session :=
            { s with symbols_env := dictSet s.symbols_env var_name (.num value)
                     math_env := dictSet s.math_env var_name value }
          ({ type := .SYMBOL_RESULT
             content := .symbolResult var_name value "assigned"
             metadata := [] }, s1.add_activity "symbol_assign" input_text)
    else exprBranch input_text s
  else exprBranch input_text s

end SymbolHandler

/-! ### Custom data handler (`handlers/custom_data.py`) -/

namespace CustomDataHandler

/-- Model of `CustomDataHandler._lookup`: exact key first, then the first
key equal under `str.lower`; `none` models the raised `KeyError`. -/
def lookup {α : Type} (data : List (String × α)) (input_text : String) : Option α :=
  match dictGet? data input_text with
  | some v => some v
  | none =>
    data.findSome? fun kv =>
      if pyLower kv.1 = pyLower input_text then some kv.2 else none

/-- Model of `CustomDataHandler.can_handle` (the modelled `custom_data` is
always a mapping, so only emptiness and lookup failure can decline). -/
def can_handle (input_text : String) (s : Session) : Bool :=
  !s.custom_data.isEmpty && (lookup s.custom_data input_text).isSome

/-- Model of `CustomDataHandler.handle`; the `none` case stands for the
`KeyError` the Python lookup raises when no key matches. -/
def handle (input_text : String) (s : Session) : Response × Session :=
  match lookup s.custom_data input_text with
  | some v =>
    ({ type := .TEXT
       content := .textContent v
       metadata := [("source", "custom_data")] }, s.add_activity "custom_data" input_text)
  | none =>
    ({ type := .ERROR
       content := .errorContent "Custom data is not loaded correctly."
       metadata := [] }, s)

end CustomDataHandler

/-! ### Session persistence (`session_store.py`)

The filesystem is a partial map from paths to file contents.  The three
fallible operations of `save_persisted_session` (directory creation, the
temp-file write, the rename) are driven by an `FsFailures` oracle so the
theorem quantifies over every failure pattern.  A failed write may leave
arbitrary partial content at the temp path; `Path.replace` is an atomic
rename. -/

inductive WriteOutcome where
  | ok
  | failPartial (partialContent : String)
  | fail
  deriving DecidableEq

structure FsFailures where
  mkdirFails : Bool
  writeOutcome : WriteOutcome
  replaceFails : Bool
  deriving DecidableEq

def fsSet (fs : String → Option String) (p c : String) : String → Option String :=
  fun q => if q = p then some c else fs q

def fsDel (fs : String → Option String) (p : String) : String → Option String :=
  fun q => if q = p then none else fs q

/-- Model of `save_persisted_session`.  `payload` is the serialised session
(`json.dumps(session.to_dict(), ...)`; `to_dict` lives in the absent
`models.py`).  `path` is the snapshot path; the temp path is
`path.with_suffix(path.suffix + ".tmp")`, i.e. `path ++ ".tmp"`. -/
def save_persisted_session (fs : String → Option String) (f : FsFailures)
    (path payload : String) : Bool × (String → Option String) :=
  let temp_path := path ++ ".tmp"
  if f.mkdirFails then (false, fs)
  else
    match f.writeOutcome with
    | .fail => (false, fs)
    | .failPartial part => (false, fsSet fs temp_path part)
    | .ok =>
      let fs1 := fsSet fs temp_path payload
      if f.replaceFails then (false, fs1)
      else (true, fsDel (fsSet fs1 path payload) temp_path)

/-! ## Helper lemmas -/

theorem dictGet?_dictSet_self {κ α : Type} [DecidableEq κ]
    (m : List (κ × α)) (k : κ) (v : α) :
    dictGet? (dictSet m k v) k = some v := by
  induction m with
  | nil => simp [dictSet, dictGet?]
  | cons hd tl ih =>
    by_cases h : hd.1 = k
    · simp [dictSet, dictGet?, h]
    · simpa [dictSet, dictGet?, h] using ih

theorem dictGet?_eq_some_of_mem {α : Type} {data : List (String × α)}
    {t : String} {v : α}
    (hnd : (data.map Prod.fst).Nodup) (hm : (t, v) ∈ data) :
    dictGet? data t = some v := by
  induction data with
  | nil => cases hm
  | cons hd tl ih =>
    rcases List.mem_cons.mp hm with heq | htl
    · subst heq
      simp [dictGet?]
    · have hhd : hd.1 ≠ t := by
        intro h
        exact (List.nodup_cons.mp hnd).1 (h ▸ List.mem_map_of_mem Prod.fst htl)
      simp only [dictGet?, if_neg hhd]
      exact ih (List.nodup_cons.mp hnd).2 htl

theorem dictGet?_eq_none_of_not_mem {α : Type} {data : List (String × α)}
    {t : String} (h : ∀ kv ∈ data, kv.1 ≠ t) :
    dictGet? data t = none := by
  induction data with
  | nil => rfl
  | cons hd tl ih =>
    simp only [dictGet?, if_neg (h hd (List.mem_cons_self hd tl))]
    exact ih fun kv hkv => h kv (List.mem_cons_of_mem hd hkv)

theorem findSome?_isSome_of_mem {α β : Type} {f : α → Option β}
    {l : List α} {x : α} {y : β} (hx : x ∈ l) (hf : f x = some y) :
    (l.findSome? f).isSome = true := by
  induction l with
  | nil => cases hx
  | cons hd tl ih =>
    rw [List.findSome?_cons]
    rcases List.mem_cons.mp hx with heq | htl
    · subst heq
      simp [hf]
    · cases hhd : f hd with
      | some b => simp
      | none => simpa using ih htl

theorem mem_of_findSome?_eq_some {α β : Type} {f : α → Option β}
    {l : List α} {b : β} (h : l.findSome? f = some b) :
    ∃ x ∈ l, f x = some b := by
  induction l with
  | nil => cases h
  | cons hd tl ih =>
    rw [List.findSome?_cons] at h
    cases hhd : f hd with
    | some c =>
      rw [hhd] at h
      exact ⟨hd, List.mem_cons_self hd tl, hhd.trans h⟩
    | none =>
      rw [hhd] at h
      obtain ⟨x, hx, hfx⟩ := ih h
      exact ⟨x, List.mem_cons_of_mem hd hx, hfx⟩

/-! ## Claim C7 — atomic session persistence -/

/-- C7: `save_persisted_session` installs the serialized session via a
temp-file write followed by a rename; on every failure (directory creation,
write, or rename) it returns `False` and the snapshot at the final path is
unchanged, and on success the final path holds exactly the full payload —
never a partial write. -/
theorem save_persisted_session_atomic (fs : String → Option String)
    (f : FsFailures) (path payload : String) :
    ((save_persisted_session fs f path payload).1 = false →
      (save_persisted_session fs f path payload).2 path = fs path) ∧
    ((save_persisted_session fs f path payload).1 = true →
      (save_persisted_session fs f path payload).2 path = some payload) := by
  have hne : path ≠ path ++ ".tmp" := by
    intro h
    have hlen := congrArg String.length h
    rw [String.length_append] at hlen
    have h4 : (".tmp" : String).length = 4 := rfl
    omega
  rcases f with ⟨mk, wo, rp⟩
  cases mk <;> cases wo <;> cases rp <;>
    simp [save_persisted_session, fsSet, fsDel, hne]

/-- Witness for C7: a failed write leaves the old snapshot readable, and a
clean run installs the new payload. -/
theorem save_persisted_session_atomic_witness :
    (save_persisted_session (fun _ => some "old")
      ⟨false, .failPartial "junk", false⟩ "p.json" "new").2 "p.json" = some "old" ∧
    (save_persisted_session (fun _ => some "old")
      ⟨false, .ok, false⟩ "p.json" "new").2 "p.json" = some "new" := by
  constructor
  · exact (save_persisted_session_atomic (fun _ => some "old")
      ⟨false, .failPartial "junk", false⟩ "p.json" "new").1 rfl
  · exact (save_persisted_session_atomic (fun _ => some "old")
      ⟨false, .ok, false⟩ "p.json" "new").2 rfl

/-! ## Claim C8 — custom-data lookup -/

/-- C8: custom-data lookup returns the exact-key match when the input is a
key (exact match takes priority regardless of other case-folded matches);
otherwise it returns the value of some key equal to the input under case
folding; when no key matches either way, `can_handle` declines. -/
theorem custom_data_lookup_spec (data : List (String × String)) (t : String)
    (hnd : (data.map Prod.fst).Nodup) :
    (∀ v, (t, v) ∈ data → CustomDataHandler.lookup data t = some v) ∧
    (dictGet? data t = none →
      ∀ k v, (k, v) ∈ data → pyLower k = pyLower t →
        ∃ k' v', (k', v') ∈ data ∧ pyLower k' = pyLower t ∧
          CustomDataHandler.lookup data t = some v') ∧
    ((∀ kv ∈ data, kv.1 ≠ t) → (∀ kv ∈ data, pyLower kv.1 ≠ pyLower t) →
      CustomDataHandler.can_handle t { freshSession with custom_data := data } = false) := by
  refine ⟨?_, ?_, ?_⟩
  · intro v hm
    unfold CustomDataHandler.lookup
    rw [dictGet?_eq_some_of_mem hnd hm]
  · intro hnone k v hm hfold
    have hf : (fun kv : String × String =>
        if pyLower kv.1 = pyLower t then some kv.2 else none) (k, v) = some v := by
      simp [hfold]
    have hsome := @findSome?_isSome_of_mem _ _
      (fun kv : String × String => if pyLower kv.1 = pyLower t then some kv.2 else none)
      data (k, v) v hm hf
    cases hfs : data.findSome? (fun kv =>
        if pyLower kv.1 = pyLower t then some kv.2 else none) with
    | none => rw [hfs] at hsome; cases hsome
    | some w =>
      obtain ⟨kv', hkv'mem, hkv'⟩ := mem_of_findSome?_eq_some hfs
      have hcond : pyLower kv'.1 = pyLower t ∧ w = kv'.2 := by
        by_cases hc : pyLower kv'.1 = pyLower t
        · refine ⟨hc, ?_⟩
          rw [if_pos hc] at hkv'
          exact (Option.some.inj hkv').symm
        · rw [if_neg hc] at hkv'; cases hkv'
      refine ⟨kv'.1, w, ?_, hcond.1, ?_⟩
      · rw [hcond.2]; exact hkv'mem
      · unfold CustomDataHandler.lookup
        rw [hnone, hfs]
  · intro hexact hfold
    have h1 : dictGet? data t = none := dictGet?_eq_none_of_not_mem hexact
    have h2 : data.findSome? (fun kv =>
        if pyLower kv.1 = pyLower t then some kv.2 else none) = none := by
      rw [List.findSome?_eq_none_iff]
      intro kv hkv
      rw [if_neg (hfold kv hkv)]
    unfold CustomDataHandler.can_handle CustomDataHandler.lookup
    rw [h1, h2]
    simp

/-- Witness for C8: exact-key priority and case-folded fallback on a
two-entry mapping, and a decline on a miss. -/
theorem custom_data_lookup_spec_witness :
    CustomDataHandler.lookup [("Dog", "woof"), ("dog", "bark")] "dog" = some "bark" ∧
    (∃ k' v', (k', v') ∈ [("Dog", "woof"), ("cat", "meow")] ∧
      pyLower k' = pyLower "dog" ∧
      CustomDataHandler.lookup [("Dog", "woof"), ("cat", "meow")] "dog" = some v') ∧
    CustomDataHandler.can_handle "fish"
      { freshSession with custom_data := [("Dog", "woof"), ("cat", "meow")] } = false := by
  refine ⟨?_, ?_, ?_⟩
  · exact (custom_data_lookup_spec [("Dog", "woof"), ("dog", "bark")] "dog"
      (by decide)).1 "bark" (by decide)
  · exact (custom_data_lookup_spec [("Dog", "woof"), ("cat", "meow")] "dog"
      (by decide)).2.1 (by decide) "Dog" "woof" (by decide) (by decide)
  · exact (custom_data_lookup_spec [("Dog", "woof"), ("cat", "meow")] "fish"
      (by decide)).2.2 (by decide) (by decide)

/-! ## Claim C3 — correct quiz answer advances the session -/

/-- C3: with an active quiz, a correct answer through the `QuizHandler`
increments `problems_solved` and `current_streak` by 1 (so after wrong
answers, where the streak is 0, it becomes 1), replaces `current_quiz` with
a freshly generated quiz whose id differs from the solved quiz's id,
generated at the level derived from the updated `problems_solved`
(1 below 5, 2 below 15, 3 below 30, else 4), and returns a `QUIZ` response
carrying both the solved quiz and the new one.  `hfresh` is the id-supply
invariant: every live quiz id is below `next_quiz_id`. -/
theorem quiz_correct_transition (input : String) (s : Session) (q : Quiz)
    (hq : s.current_quiz = some q)
    (hfresh : q.id < s.next_quiz_id)
    (hcorrect : QuizService.check_answer q (QuizHandler.extract_answer input) = true) :
    (QuizHandler.handle input s).2.problems_solved = s.problems_solved + 1 ∧
    (QuizHandler.handle input s).2.current_streak = s.current_streak + 1 ∧
    ∃ q', (QuizHandler.handle input s).2.current_quiz = some q' ∧
      q'.id ≠ q.id ∧
      q'.difficulty = (if s.problems_solved + 1 < 5 then 1
        else if s.problems_solved + 1 < 15 then 2
        else if s.problems_solved + 1 < 30 then 3 else 4) ∧
      (QuizHandler.handle input s).1.type = .QUIZ ∧
      (QuizHandler.handle input s).1.content =
        .quizCorrect q.question q.answer q q'
          (s.current_streak + 1) (s.problems_solved + 1) := by
  unfold QuizHandler.handle
  rw [hq]
  simp only [hcorrect, if_true]
  exact ⟨rfl, rfl, _, rfl, Nat.ne_of_gt hfresh, rfl, True.intro, rfl⟩

/-- Witness for C3: solving "12" on a one-quiz session. -/
theorem quiz_correct_transition_witness :
    ((QuizHandler.handle "12"
      { freshSession with
          current_quiz := some { id := 3, question := "6 + 6 = ?", answer := 12, difficulty := 1 }
          next_quiz_id := 7
          problems_solved := 4 }).2.problems_solved = 4 + 1) ∧
    (∃ q', (QuizHandler.handle "12"
      { freshSession with
          current_quiz := some { id := 3, question := "6 + 6 = ?", answer := 12, difficulty := 1 }
          next_quiz_id := 7
          problems_solved := 4 }).2.current_quiz = some q' ∧
      q'.id ≠ 3 ∧ q'.difficulty = 2) := by
  have h := quiz_correct_transition "12"
    { freshSession with
        current_quiz := some { id := 3, question := "6 + 6 = ?", answer := 12, difficulty := 1 }
        next_quiz_id := 7
        problems_solved := 4 }
    { id := 3, question := "6 + 6 = ?", answer := 12, difficulty := 1 }
    rfl (by decide) (by decide)
  refine ⟨by simpa using h.1, ?_⟩
  obtain ⟨q', hq', hid, hdiff, -⟩ := h.2.2
  exact ⟨q', hq', hid, by simpa using hdiff⟩

/-! ## Claim C4 — wrong quiz answers: attempts, streak, clue, number facts -/

/-- C4: a wrong answer to the active quiz increments `quiz_attempts[id]` by
exactly 1, resets `current_streak` to 0, keeps the quiz current, and the
`QUIZ` response carries, from the 3rd attempt onward, the decade clue
computed from the stored integer answer (below 10: "less than 10"; below
50: between `(answer//10)*10` and that plus 10; otherwise the leading
digit), and a number-facts payload exactly when the submitted answer is a
displayable small number. -/
theorem quiz_wrong_transition (input : String) (s : Session) (q : Quiz)
    (hq : s.current_quiz = some q)
    (hwrong : QuizService.check_answer q (QuizHandler.extract_answer input) = false) :
    (QuizHandler.handle input s).2.quiz_attempts =
      dictSet s.quiz_attempts q.id (dictGetD s.quiz_attempts q.id 0 + 1) ∧
    dictGetD (QuizHandler.handle input s).2.quiz_attempts q.id 0 =
      dictGetD s.quiz_attempts q.id 0 + 1 ∧
    (QuizHandler.handle input s).2.current_streak = 0 ∧
    (QuizHandler.handle input s).2.current_quiz = some q ∧
    (QuizHandler.handle input s).1.type = .QUIZ ∧
    (QuizHandler.handle input s).1.content =
      .quizWrong input
        (if dictGetD s.quiz_attempts q.id 0 + 1 ≥ 3 then
          "Great persistence! Helpful clue: " ++
            (if q.answer < 10 then "The answer is less than 10."
             else if q.answer < 50 then
               "The answer is between " ++ toString (q.answer.fdiv 10 * 10) ++
                 " and " ++ toString ((q.answer.fdiv 10 + 1) * 10) ++ "."
             else "The answer starts with " ++ (toString q.answer).take 1 ++ ".")
         else "Great attempt! Keep going on this one.")
        (if can_build_number_tree (pyStripStr (QuizHandler.extract_answer input)) then
          "Nice thinking with " ++
            toString (digitsVal (pyStripStr (QuizHandler.extract_answer input)).toList) ++
            "! Let's explore it while we keep going."
         else "Nice thinking.")
        q
        (dictGetD s.quiz_attempts q.id 0 + 1)
        (if can_build_number_tree (pyStripStr (QuizHandler.extract_answer input)) then
          some (build_number_tree_content
            (digitsVal (pyStripStr (QuizHandler.extract_answer input)).toList))
         else none) := by
  unfold QuizHandler.handle
  rw [hq]
  simp only [hwrong, Bool.false_eq_true, if_false, Session.add_activity]
  have hget : dictGetD
      (dictSet s.quiz_attempts q.id (dictGetD s.quiz_attempts q.id 0 + 1)) q.id 0 =
      dictGetD s.quiz_attempts q.id 0 + 1 := by
    simp [dictGetD, dictGet?_dictSet_self]
  refine ⟨?_, ?_, ?_, ?_, ?_, ?_⟩ <;>
    first
      | rfl
      | trivial
      | exact hget
      | (simp only [hget]
         by_cases h3 : dictGetD s.quiz_attempts q.id 0 + 1 ≥ 3 <;>
           by_cases hnf : can_build_number_tree (pyStripStr (QuizHandler.extract_answer input)) = true <;>
           simp [h3, hnf, QuizHandler.clueFor, build_number_tree_content])

/-- Witness for C4: the 3rd wrong attempt "11" against answer 12 yields the
between-10-and-20 clue and number facts for 11. -/
theorem quiz_wrong_transition_witness :
    dictGetD (QuizHandler.handle "11"
      { freshSession with
          current_quiz := some { id := 3, question := "6 + 6 = ?", answer := 12, difficulty := 1 }
          quiz_attempts := [(3, 2)]
          current_streak := 2 }).2.quiz_attempts 3 0 = 3 ∧
    (QuizHandler.handle "11"
      { freshSession with
          current_quiz := some { id := 3, question := "6 + 6 = ?", answer := 12, difficulty := 1 }
          quiz_attempts := [(3, 2)]
          current_streak := 2 }).2.current_streak = 0 ∧
    (QuizHandler.handle "11"
      { freshSession with
          current_quiz := some { id := 3, question := "6 + 6 = ?", answer := 12, difficulty := 1 }
          quiz_attempts := [(3, 2)]
          current_streak := 2 }).1.content =
      .quizWrong "11" "Great persistence! Helpful clue: The answer is between 10 and 20."
        "Nice thinking with 11! Let's explore it while we keep going."
        { id := 3, question := "6 + 6 = ?", answer := 12, difficulty := 1 }
        3 (some { number := 11, factors := [(1, 11)] }) := by
  have h := quiz_wrong_transition "11"
    { freshSession with
        current_quiz := some { id := 3, question := "6 + 6 = ?", answer := 12, difficulty := 1 }
        quiz_attempts := [(3, 2)]
        current_streak := 2 }
    { id := 3, question := "6 + 6 = ?", answer := 12, difficulty := 1 }
    rfl (by decide)
  refine ⟨?_, h.2.2.1, ?_⟩
  · simpa using h.2.1
  · rw [h.2.2.2.2.2]
    decide

/-! ## Claim C10 — math handler solving the active quiz: frame conditions -/

/-- C10: when a quiz is active and the `MathHandler` evaluates an
expression whose result's string form equals the stored answer's string
form, `problems_solved` and `current_streak` each increase by exactly 1
while `current_quiz` and `quiz_attempts` are untouched — and no quiz is
generated (the id supply is unchanged). -/
theorem math_handler_quiz_frame (input : String) (s : Session) (q : Quiz) (r0 : Value)
    (hq : s.current_quiz = some q)
    (hna : MathHandler.isAssignment (MathHandler.resolved_expression input s).1 = false)
    (hok : (montyEvaluate (mkEvaluator s.math_env)
      (MathHandler.resolved_expression input s).1).1 = .ok r0)
    (hans : (MathHandler.float_to_int_result r0).pyStr = toString q.answer) :
    (MathHandler.handle input s).2.problems_solved = s.problems_solved + 1 ∧
    (MathHandler.handle input s).2.current_streak = s.current_streak + 1 ∧
    (MathHandler.handle input s).2.current_quiz = some q ∧
    (MathHandler.handle input s).2.quiz_attempts = s.quiz_attempts ∧
    (MathHandler.handle input s).2.next_quiz_id = s.next_quiz_id := by
  unfold MathHandler.handle
  rw [hna]
  simp only [Bool.false_eq_true, if_false]
  unfold MathHandler.calcBranch
  rw [hok]
  unfold MathHandler.mathFinish MathHandler.quiz_solve_check
  by_cases hn : (MathHandler.float_to_int_result r0).isNumeric = true <;>
    simp only [hn, if_true, Bool.false_eq_true, if_false, Session.add_activity,
      hq, hans, eq_self_iff_true] <;>
    refine ⟨?_, ?_, ?_, ?_, ?_⟩ <;>
    first
      | rfl
      | trivial

/-- Witness for C10: "6 + 6" solves the active quiz with answer 12 without
rotating it. -/
theorem math_handler_quiz_frame_witness :
    ((MathHandler.handle "6 + 6"
      { freshSession with
          current_quiz := some { id := 3, question := "6 + 6 = ?", answer := 12, difficulty := 1 }
          quiz_attempts := [(3, 1)] }).2.problems_solved = 0 + 1) ∧
    ((MathHandler.handle "6 + 6"
      { freshSession with
          current_quiz := some { id := 3, question := "6 + 6 = ?", answer := 12, difficulty := 1 }
          quiz_attempts := [(3, 1)] }).2.current_quiz =
        some { id := 3, question := "6 + 6 = ?", answer := 12, difficulty := 1 }) ∧
    ((MathHandler.handle "6 + 6"
      { freshSession with
          current_quiz := some { id := 3, question := "6 + 6 = ?", answer := 12, difficulty := 1 }
          quiz_attempts := [(3, 1)] }).2.quiz_attempts = [(3, 1)]) := by
  have h := math_handler_quiz_frame "6 + 6"
    { freshSession with
        current_quiz := some { id := 3, question := "6 + 6 = ?", answer := 12, difficulty := 1 }
        quiz_attempts := [(3, 1)] }
    { id := 3, question := "6 + 6 = ?", answer := 12, difficulty := 1 }
    (.int 12) rfl (by decide) rfl (by decide)
  exact ⟨h.1, h.2.2.1, by rw [h.2.2.2.1]⟩

/-! ## Claim C6 — the `last_number` invariant -/

/-- C6: every handler turn that produces a numeric result stores it under
`math_env["last_number"]` — the math calculation branch, the number-facts
display, and the numeric symbol expression — and operator-leading input is
resolved by the `MathHandler` as `last_number` followed by the operator and
operand before evaluation. -/
theorem last_number_invariant :
    (∀ input s r0,
      MathHandler.isAssignment (MathHandler.resolved_expression input s).1 = false →
      (montyEvaluate (mkEvaluator s.math_env)
        (MathHandler.resolved_expression input s).1).1 = .ok r0 →
      (MathHandler.float_to_int_result r0).isNumeric = true →
      dictGet? (MathHandler.handle input s).2.math_env "last_number" =
        some (MathHandler.float_to_int_result r0)) ∧
    (∀ input s,
      dictGet? (NumberTreeHandler.handle input s).2.math_env "last_number" =
        some (.int (digitsVal input.toList))) ∧
    (∀ input s r0,
      SymbolHandler.undefined_identifiers input s = [] →
      (montyEvaluate (mkEvaluator (SymbolHandler.numeric_env s)) input).1 = .ok r0 →
      (SymbolHandler.symbol_float_to_int r0).isNumeric = true →
      dictGet? (SymbolHandler.exprBranch input s).2.math_env "last_number" =
        some (SymbolHandler.symbol_float_to_int r0)) ∧
    (∀ input s c rest,
      (MathHandler.normalize_multiplication_aliases
        (String.mk (collapseWs (pyStrip input.toList)))).1.toList = c :: rest →
      (c = '+' || c = '-' || c = '*' || c = '/') = true →
      (MathHandler.resolved_expression input s).1 =
        (dictGetD s.math_env "last_number" (.int 0)).pyStr ++ " " ++
          (MathHandler.normalize_multiplication_aliases
            (String.mk (collapseWs (pyStrip input.toList)))).1) := by
  refine ⟨?_, ?_, ?_, ?_⟩
  · intro input s r0 hna hok hnum
    unfold MathHandler.handle
    rw [hna]
    simp only [Bool.false_eq_true, if_false]
    unfold MathHandler.calcBranch
    rw [hok]
    unfold MathHandler.mathFinish MathHandler.quiz_solve_check
    simp only [hnum, if_true, Session.add_activity]
    cases hcq : s.current_quiz with
    | none => simp only [hcq]; exact dictGet?_dictSet_self _ _ _
    | some q =>
      simp only [hcq]
      split <;> exact dictGet?_dictSet_self _ _ _
  · intro input s
    unfold NumberTreeHandler.handle
    simp only [Session.add_activity]
    exact dictGet?_dictSet_self _ _ _
  · intro input s r0 hund hok hnum
    unfold SymbolHandler.exprBranch
    rw [hund, hok]
    simp only [hnum, if_true, Session.add_activity]
    exact dictGet?_dictSet_self _ _ _
  · intro input s c rest h1 h2
    unfold MathHandler.resolved_expression
    simp only [h1, h2, if_true]

/-- Witness for C6: "2 + 2" stores 4; "12" stores 12; "y + 3" with y = 7
stores 10; "+5" resolves against `last_number = 37` to "37 +5". -/
theorem last_number_invariant_witness :
    dictGet? (MathHandler.handle "2 + 2" freshSession).2.math_env "last_number" =
      some (.int 4) ∧
    dictGet? (NumberTreeHandler.handle "12" freshSession).2.math_env "last_number" =
      some (.int 12) ∧
    dictGet? (SymbolHandler.exprBranch "y + 3"
      { freshSession with symbols_env := [("y", .num (.int 7))] }).2.math_env
      "last_number" = some (.int 10) ∧
    (MathHandler.resolved_expression "+5"
      { freshSession with math_env := [("last_number", .int 37)] }).1 = "37 +5" := by
  refine ⟨?_, ?_, ?_, ?_⟩
  · exact last_number_invariant.1 "2 + 2" freshSession (.int 4) (by decide) rfl (by decide)
  · exact last_number_invariant.2.1 "12" freshSession
  · exact last_number_invariant.2.2.1 "y + 3"
      { freshSession with symbols_env := [("y", .num (.int 7))] } (.int 10)
      (by decide) rfl (by decide)
  · exact (last_number_invariant.2.2.2 "+5"
      { freshSession with math_env := [("last_number", .int 37)] }
      '+' ['5'] rfl (by decide)).trans rfl

/-! ## Claim C9 — `x` as multiplication -/

theorem toList_mk (l : List Char) : (String.mk l).toList = l := rfl

/-- The `interpreted_multiply_x` flag equals the Boolean "the
`MULTIPLY_X_PATTERN` matches somewhere in the whitespace-collapsed
input". -/
theorem resolved_expression_flag (input : String) (s : Session) :
    (MathHandler.resolved_expression input s).2 =
      mulAliasOccurs (collapseWs (pyStrip input.toList)) := by
  unfold MathHandler.resolved_expression MathHandler.normalize_multiplication_aliases
  cases h : mulAliasOccurs (collapseWs (pyStrip input.toList)) <;>
    · simp only [String.toList] at h ⊢
      simp [h]

/-- `mathError` yields `TryNext` or an `ERROR` response, never a
`MATH_RESULT`. -/
theorem mathError_first (input : String) (er : SMErr) (s : Session) :
    (MathHandler.mathError input er s).1 = .tryNext er.msg ∨
    (MathHandler.mathError input er s).1 =
      .resp { type := .ERROR
              content := .errorContent ("Math error: " ++ er.msg)
              metadata := [("expression", input)] } := by
  simp only [MathHandler.mathError]
  split
  · exact Or.inl rfl
  · exact Or.inr rfl

/-- In the assignment branch, a `MATH_RESULT` response's note is exactly
the flag-controlled note. -/
theorem assignBranch_note (input ce : String) (f : Bool) (s : Session)
    (e : String) (r : Value) (n d : Option String) (md : List (String × String))
    (h : (MathHandler.assignBranch input ce f s).1 =
      .resp { type := .MATH_RESULT, content := .mathResult e r n d, metadata := md }) :
    n = if f then some MathHandler.noteText else none := by
  unfold MathHandler.assignBranch at h
  split at h
  · rcases mathError_first input _ s with hx | hx <;> rw [hx] at h <;> simp_all
  · have hc := congrArg (fun out : HandlerOut =>
      match out with
      | .resp rsp =>
        match rsp.content with
        | .mathResult _ _ nn _ => nn
        | _ => none
      | _ => none) h
    simpa [MathHandler.mathFinish] using hc.symm

/-- In the calculation branch, a `MATH_RESULT` response's note is exactly
the flag-controlled note. -/
theorem calcBranch_note (input ce : String) (f : Bool) (s : Session)
    (e : String) (r : Value) (n d : Option String) (md : List (String × String))
    (h : (MathHandler.calcBranch input ce f s).1 =
      .resp { type := .MATH_RESULT, content := .mathResult e r n d, metadata := md }) :
    n = if f then some MathHandler.noteText else none := by
  unfold MathHandler.calcBranch at h
  split at h
  · rcases mathError_first input _ s with hx | hx <;> rw [hx] at h <;> simp_all
  · have hc := congrArg (fun out : HandlerOut =>
      match out with
      | .resp rsp =>
        match rsp.content with
        | .mathResult _ _ nn _ => nn
        | _ => none
      | _ => none) h
    simpa [MathHandler.mathFinish] using hc.symm

/-- C9: `"8 x 6"` produces a `MATH_RESULT` with result 48 and the note
explaining the `x`-as-multiplication interpretation; an input with no
`x`/`×` occurrence between a digit/`)` and a digit/`(` is left unchanged
with no flag; and for every `MATH_RESULT` response, the note is attached
exactly when such an occurrence exists in the normalised input. -/
theorem multiplication_alias_note :
    ((MathHandler.handle "8 x 6" freshSession).1 =
      .resp { type := .MATH_RESULT
              content := .mathResult "8 * 6" (.int 48) (some MathHandler.noteText) none
              metadata := [("complexity", "2"), ("has_variables", "False")] }) ∧
    (∀ t : String, mulAliasOccurs t.toList = false →
      MathHandler.normalize_multiplication_aliases t = (t, false)) ∧
    (∀ input s e r n d md,
      (MathHandler.handle input s).1 =
        .resp { type := .MATH_RESULT, content := .mathResult e r n d, metadata := md } →
      n.isSome = mulAliasOccurs (collapseWs (pyStrip input.toList))) := by
  refine ⟨by decide, ?_, ?_⟩
  · intro t h
    unfold MathHandler.normalize_multiplication_aliases
    rw [h]
    simp
  · intro input s e r n d md h
    unfold MathHandler.handle at h
    have hflag := resolved_expression_flag input s
    have hn : n = (if (MathHandler.resolved_expression input s).2 then
        some MathHandler.noteText else none) := by
      split at h
      · exact assignBranch_note input _ _ s e r n d md h
      · exact calcBranch_note input _ _ s e r n d md h
    rw [hn, ← hflag]
    cases hf : (MathHandler.resolved_expression input s).2 <;> simp [hf]

/-- Witness for C9: the no-occurrence identity on `"2+2"` and the
note-iff-occurrence equivalence instantiated at `"8 x 6"`. -/
theorem multiplication_alias_note_witness :
    MathHandler.normalize_multiplication_aliases "2+2" = ("2+2", false) ∧
    mulAliasOccurs (collapseWs (pyStrip "8 x 6".toList)) = true := by
  constructor
  · exact multiplication_alias_note.2.1 "2+2" (by decide)
  · exact (multiplication_alias_note.2.2 "8 x 6" freshSession
      "8 * 6" (.int 48) (some MathHandler.noteText) none
      [("complexity", "2"), ("has_variables", "False")] (by decide)).symm

/-! ## Claim C5 — deterministic re-evaluation through the compiled cache -/

theorem cacheFind?_append {M : Type}
    (cache : List ((String × List (String × Value)) × M))
    (key : String × List (String × Value)) (m : M)
    (h : SafeMathEvaluator.cacheFind? cache key = none) :
    SafeMathEvaluator.cacheFind? (cache ++ [(key, m)]) key = some m := by
  induction cache with
  | nil => simp [SafeMathEvaluator.cacheFind?]
  | cons hd tl ih =>
    by_cases hk : hd.1 = key
    · rw [show SafeMathEvaluator.cacheFind? (hd :: tl) key =
        (if hd.1 = key then some hd.2 else SafeMathEvaluator.cacheFind? tl key) from rfl,
        if_pos hk] at h
      cases h
    · rw [show SafeMathEvaluator.cacheFind? (hd :: tl) key =
        (if hd.1 = key then some hd.2 else SafeMathEvaluator.cacheFind? tl key) from rfl,
        if_neg hk] at h
      have := ih h
      rw [List.cons_append,
        show SafeMathEvaluator.cacheFind? (hd :: (tl ++ [(key, m)])) key =
          (if hd.1 = key then some hd.2
           else SafeMathEvaluator.cacheFind? (tl ++ [(key, m)]) key) from rfl,
        if_neg hk]
      exact this

/-- C5: on any interpreter, once `evaluate` accepts an expression, calling
it again on the same evaluator instance with the same expression and the
same variables returns the identical result and leaves the state unchanged:
the compiled instance is found in the cache under the key
`build_cache_key (expression, sorted inputs)` instead of being recompiled. -/
theorem evaluate_deterministic_cached {M : Type} (lib : MontyLib M)
    (st : EvalState M) (e : String) (v : Value)
    (h : (SafeMathEvaluator.evaluate lib st e).1 = .ok v) :
    SafeMathEvaluator.evaluate lib (SafeMathEvaluator.evaluate lib st e).2 e =
      (.ok v, (SafeMathEvaluator.evaluate lib st e).2) ∧
    ((SafeMathEvaluator.evaluate lib st e).2).vars = st.vars ∧
    (SafeMathEvaluator.cacheFind? ((SafeMathEvaluator.evaluate lib st e).2).cache
      (SafeMathEvaluator.build_cache_key e
        (dictUpdate SafeMathEvaluator.MATH_CONSTANTS st.vars))).isSome = true := by
  cases hpre : SafeMathEvaluator.prechecks e with
  | some err =>
    have hbad : (SafeMathEvaluator.evaluate lib st e).1 = .error err := by
      unfold SafeMathEvaluator.evaluate
      rw [hpre]
    rw [hbad] at h
    cases h
  | none =>
    have heval : ∀ st' : EvalState M,
        SafeMathEvaluator.evaluate lib st' e = SafeMathEvaluator.evalCore lib st' e := by
      intro st'
      unfold SafeMathEvaluator.evaluate
      rw [hpre]
    rw [heval] at h
    rw [heval, heval]
    cases hc : SafeMathEvaluator.cacheFind? st.cache
        (SafeMathEvaluator.build_cache_key e
          (dictUpdate SafeMathEvaluator.MATH_CONSTANTS st.vars)) with
    | some m =>
      have hfirst : SafeMathEvaluator.evalCore lib st e =
          (SafeMathEvaluator.runAndCheck lib m
            (dictUpdate SafeMathEvaluator.MATH_CONSTANTS st.vars), st) := by
        unfold SafeMathEvaluator.evalCore
        rw [hc]
      rw [hfirst] at h ⊢
      simp only at h
      refine ⟨?_, rfl, ?_⟩
      · show SafeMathEvaluator.evalCore lib st e = (.ok v, st)
        rw [hfirst, h]
      · simp [hc]
    | none =>
      have hfirst : SafeMathEvaluator.evalCore lib st e =
          (SafeMathEvaluator.runAndCheck lib
            (lib.compile e
              ((dictUpdate SafeMathEvaluator.MATH_CONSTANTS st.vars).map (fun p => p.1))
              SafeMathEvaluator.SAFE_FUNCTION_NAMES)
            (dictUpdate SafeMathEvaluator.MATH_CONSTANTS st.vars),
           { st with cache := st.cache ++
              [(SafeMathEvaluator.build_cache_key e
                  (dictUpdate SafeMathEvaluator.MATH_CONSTANTS st.vars),
                lib.compile e
                  ((dictUpdate SafeMathEvaluator.MATH_CONSTANTS st.vars).map (fun p => p.1))
                  SafeMathEvaluator.SAFE_FUNCTION_NAMES)] }) := by
        unfold SafeMathEvaluator.evalCore
        rw [hc]
      rw [hfirst] at h ⊢
      simp only at h
      have hhit := cacheFind?_append st.cache
        (SafeMathEvaluator.build_cache_key e
          (dictUpdate SafeMathEvaluator.MATH_CONSTANTS st.vars))
        (lib.compile e
          ((dictUpdate SafeMathEvaluator.MATH_CONSTANTS st.vars).map (fun p => p.1))
          SafeMathEvaluator.SAFE_FUNCTION_NAMES) hc
      refine ⟨?_, rfl, ?_⟩
      · show SafeMathEvaluator.evalCore lib
            { st with cache := st.cache ++
              [(SafeMathEvaluator.build_cache_key e
                  (dictUpdate SafeMathEvaluator.MATH_CONSTANTS st.vars),
                lib.compile e
                  ((dictUpdate SafeMathEvaluator.MATH_CONSTANTS st.vars).map (fun p => p.1))
                  SafeMathEvaluator.SAFE_FUNCTION_NAMES)] } e =
          (.ok v,
           { st with cache := st.cache ++
              [(SafeMathEvaluator.build_cache_key e
                  (dictUpdate SafeMathEvaluator.MATH_CONSTANTS st.vars),
                lib.compile e
                  ((dictUpdate SafeMathEvaluator.MATH_CONSTANTS st.vars).map (fun p => p.1))
                  SafeMathEvaluator.SAFE_FUNCTION_NAMES)] })
        unfold SafeMathEvaluator.evalCore
        simp only [hhit]
        rw [h]
      · simp [hhit]

/-- Witness for C5: evaluating `"2 + 2"` twice on one evaluator instance
returns 4 both times and the second call hits the cache. -/
theorem evaluate_deterministic_cached_witness :
    (montyEvaluate (montyEvaluate (mkEvaluator []) "2 + 2").2 "2 + 2" =
      (.ok (.int 4), (montyEvaluate (mkEvaluator []) "2 + 2").2)) ∧
    (SafeMathEvaluator.cacheFind?
      ((montyEvaluate (mkEvaluator []) "2 + 2").2).cache
      (SafeMathEvaluator.build_cache_key "2 + 2"
        (dictUpdate SafeMathEvaluator.MATH_CONSTANTS []))).isSome = true := by
  have h := evaluate_deterministic_cached montyLib (mkEvaluator []) "2 + 2"
    (.int 4) rfl
  exact ⟨h.1, h.2.2⟩

/-! ## Character and token lemmas for the denylist pre-checks -/

theorem isPySpace_toLower {d : Char} (h : isPySpace d = true) :
    d.toLower = d := by
  simp only [isPySpace, Bool.or_eq_true, decide_eq_true_eq] at h
  rcases h with ⟨⟨⟨⟨h | h⟩ | h⟩ | h⟩ | h⟩ | h <;> subst h <;> decide

theorem isWordChar_not_space {c : Char} (h : isWordChar c = true) :
    isPySpace c = false := by
  cases hs : isPySpace c with
  | false => rfl
  | true =>
    exfalso
    simp only [isPySpace, Bool.or_eq_true, decide_eq_true_eq] at hs
    rcases hs with ⟨⟨⟨⟨hc | hc⟩ | hc⟩ | hc⟩ | hc⟩ | hc <;> subst hc <;>
      simp [isWordChar] at h

theorem startsWithChars_head {c₀ : Char} {t l : List Char}
    (h : startsWithChars (c₀ :: t) l = true) : c₀ ∈ l := by
  cases l with
  | nil => cases h
  | cons d ds =>
    simp only [startsWithChars, Bool.and_eq_true, decide_eq_true_eq] at h
    exact h.1 ▸ List.mem_cons_self d ds

theorem containsSub_head_mem {c₀ : Char} {t l : List Char}
    (h : containsSub (c₀ :: t) l = true) : c₀ ∈ l := by
  induction l with
  | nil => cases h
  | cons d ds ih =>
    simp only [containsSub, Bool.or_eq_true] at h
    rcases h with h | h
    · exact startsWithChars_head h
    · exact List.mem_cons_of_mem d (ih h)

theorem containsSub_of_hasWholeTokenAux {tok : List Char} :
    ∀ (prev : Option Char) (l : List Char),
      hasWholeTokenAux tok prev l = true → containsSub tok l = true := by
  intro prev l
  induction l generalizing prev with
  | nil =>
    intro h
    simp only [hasWholeTokenAux, Bool.and_eq_true, List.isEmpty_iff] at h
    obtain ⟨h1, -⟩ := h
    subst h1
    rfl
  | cons c cs ih =>
    intro h
    simp only [hasWholeTokenAux, Bool.or_eq_true, Bool.and_eq_true] at h
    rcases h with ⟨⟨-, hsw⟩, -⟩ | h
    · simp only [containsSub, Bool.or_eq_true]
      exact Or.inl hsw
    · simp only [containsSub, Bool.or_eq_true]
      exact Or.inr (ih (some c) h)

theorem containsSub_of_hasWholeToken {tok l : List Char}
    (h : hasWholeToken tok l = true) : containsSub tok l = true :=
  containsSub_of_hasWholeTokenAux none l h

theorem pyStrip_eq_nil_imp {l : List Char} (h : pyStrip l = []) :
    ∀ x ∈ l, isPySpace x = true := by
  unfold pyStrip at h
  have h1 : (l.dropWhile isPySpace).reverse.dropWhile isPySpace = [] := by
    rwa [List.reverse_eq_nil_iff] at h
  have h2 : ∀ x ∈ (l.dropWhile isPySpace).reverse, isPySpace x = true :=
    List.dropWhile_eq_nil_iff.mp h1
  intro x hx
  rcases List.mem_append.mp
      ((List.takeWhile_append_dropWhile (p := isPySpace) (l := l)) ▸ hx) with hx' | hx'
  · exact List.mem_takeWhile_imp hx'
  · exact h2 x (List.mem_reverse.mpr hx')

theorem pyStrip_ne_nil_of_mem {l : List Char} {d : Char}
    (hd : d ∈ l) (hns : isPySpace d = false) : pyStrip l ≠ [] := by
  intro h
  rw [pyStrip_eq_nil_imp h d hd] at hns
  cases hns

/-- A whole-token occurrence of a word-character token forces a
non-whitespace character into the raw expression. -/
theorem strip_ne_nil_of_token {expr : String} {c₀ : Char} {rest : List Char}
    (hw : isWordChar c₀ = true)
    (hocc : hasWholeToken (c₀ :: rest) (lowerChars expr.toList) = true) :
    pyStrip expr.toList ≠ [] := by
  have hmem : c₀ ∈ lowerChars expr.toList :=
    containsSub_head_mem (containsSub_of_hasWholeToken hocc)
  obtain ⟨d, hd, hdl⟩ := List.mem_map.mp hmem
  refine pyStrip_ne_nil_of_mem hd ?_
  cases hs : isPySpace d with
  | false => rfl
  | true =>
    exfalso
    have : d = c₀ := by rw [← hdl, isPySpace_toLower hs]
    rw [this] at hs
    rw [isWordChar_not_space hw] at hs
    cases hs

/-- Characterisation of `_find_blocked_pattern` success. -/
theorem find_blocked_pattern_some {expr : String} {t : String}
    (h : SafeMathEvaluator.find_blocked_pattern expr = some t) :
    (t = "__" ∧ containsSub ['_', '_'] (lowerChars expr.toList) = true) ∨
    (t ∈ SafeMathEvaluator.BLOCKED_TOKENS ∧
      hasWholeToken t.toList (lowerChars expr.toList) = true) := by
  unfold SafeMathEvaluator.find_blocked_pattern at h
  by_cases hsub : containsSub ['_', '_'] (lowerChars expr.toList) = true
  · rw [if_pos hsub] at h
    exact Or.inl ⟨(Option.some.inj h).symm, hsub⟩
  · rw [if_neg hsub] at h
    obtain ⟨tok, htok, hf⟩ := mem_of_findSome?_eq_some h
    by_cases hw : hasWholeToken tok.toList (lowerChars expr.toList) = true
    · rw [if_pos hw] at hf
      exact Or.inr ⟨(Option.some.inj hf) ▸ htok, (Option.some.inj hf) ▸ hw⟩
    · rw [if_neg hw] at hf
      cases hf

/-- The denylist as the claim states it (the source's `BLOCKED_TOKENS`
additionally contains `raw_input` and checks `__` as a substring first). -/
def CLAIM_DENYLIST : List String :=
  ["__", "import", "exec", "eval", "compile", "open", "input", "globals",
   "locals", "vars", "dir", "getattr", "setattr", "delattr", "hasattr"]

/-- When the expression is non-blank, within the length cap, and the
denylist scan finds a token, `evaluate` fails with that unsafe-pattern
error on every interpreter, with no interpreter work. -/
theorem evaluate_unsafe_of_find {M : Type} (lib : MontyLib M) (st : EvalState M)
    {expr : String} {t : String}
    (hne : pyStrip expr.toList ≠ [])
    (hlen : ¬ expr.toList.length > SafeMathEvaluator.MAX_STRING_LENGTH)
    (hfind : SafeMathEvaluator.find_blocked_pattern expr = some t) :
    (SafeMathEvaluator.evaluate lib st expr).1 = .error (.unsafePattern t) := by
  have hpre : SafeMathEvaluator.prechecks expr = some (.unsafePattern t) := by
    unfold SafeMathEvaluator.prechecks
    rw [if_neg hne, if_neg hlen, hfind]
  unfold SafeMathEvaluator.evaluate
  rw [hpre]

/-! ## Claim C1 — denylisted tokens are rejected before interpreter work -/

/-- C1 (amended): for every expression of length at most 1000 that contains
a token of the claim's denylist, matched case-insensitively as a whole
token, `evaluate` fails — on every interpreter, so before any sandboxed
work — with an unsafe-pattern error naming a blocked token that occurs in
the lowered input.  (The original claim, with no length bound, fails on
over-long inputs: see the counterexample.) -/
theorem unsafe_pattern_rejected {M : Type} (lib : MontyLib M) (st : EvalState M)
    (expr : String) (tok : String)
    (htok : tok ∈ CLAIM_DENYLIST)
    (hocc : hasWholeToken tok.toList (lowerChars expr.toList) = true)
    (hlen : expr.toList.length ≤ 1000) :
    ∃ t, (t = "__" ∨ t ∈ SafeMathEvaluator.BLOCKED_TOKENS) ∧
      containsSub t.toList (lowerChars expr.toList) = true ∧
      (SafeMathEvaluator.evaluate lib st expr).1 = .error (.unsafePattern t) := by
  have hcases : tok = "__" ∨ tok ∈ SafeMathEvaluator.BLOCKED_TOKENS := by
    simp only [CLAIM_DENYLIST, SafeMathEvaluator.BLOCKED_TOKENS,
      List.mem_cons, List.not_mem_nil, or_false] at htok ⊢
    tauto
  have hne : pyStrip expr.toList ≠ [] := by
    simp only [CLAIM_DENYLIST, List.mem_cons, List.not_mem_nil, or_false] at htok
    rcases htok with rfl | rfl | rfl | rfl | rfl | rfl | rfl | rfl | rfl | rfl |
      rfl | rfl | rfl | rfl | rfl <;>
      exact strip_ne_nil_of_token (by decide) hocc
  have hlen' : ¬ expr.toList.length > SafeMathEvaluator.MAX_STRING_LENGTH := by
    simp only [SafeMathEvaluator.MAX_STRING_LENGTH]
    omega
  have hfind : ∃ t, SafeMathEvaluator.find_blocked_pattern expr = some t := by
    unfold SafeMathEvaluator.find_blocked_pattern
    by_cases hsub : containsSub ['_', '_'] (lowerChars expr.toList) = true
    · exact ⟨"__", by rw [if_pos hsub]⟩
    · have htokB : tok ∈ SafeMathEvaluator.BLOCKED_TOKENS := by
        rcases hcases with rfl | hB
        · exact absurd (containsSub_of_hasWholeToken hocc) hsub
        · exact hB
      have hsome := @findSome?_isSome_of_mem String String
        (fun tk => if hasWholeToken tk.toList (lowerChars expr.toList) = true
          then some tk else none)
        SafeMathEvaluator.BLOCKED_TOKENS tok tok htokB
        (by show (if hasWholeToken tok.toList (lowerChars expr.toList) = true
              then some tok else none) = some tok
            rw [if_pos hocc])
      cases hfs : SafeMathEvaluator.BLOCKED_TOKENS.findSome?
          (fun tk => if hasWholeToken tk.toList (lowerChars expr.toList) = true
            then some tk else none) with
      | none => rw [hfs] at hsome; cases hsome
      | some t => exact ⟨t, by rw [if_neg hsub]; exact hfs⟩
  obtain ⟨t, hfind⟩ := hfind
  have hchar := find_blocked_pattern_some hfind
  refine ⟨t, ?_, ?_, evaluate_unsafe_of_find lib st hne hlen' hfind⟩
  · rcases hchar with ⟨rfl, -⟩ | ⟨hB, -⟩
    · exact Or.inl rfl
    · exact Or.inr hB
  · rcases hchar with ⟨rfl, hs⟩ | ⟨-, hw⟩
    · exact hs
    · exact containsSub_of_hasWholeToken hw

/-- Witness for C1: `"1 + imPort"` is rejected with
`Unsafe pattern: import` despite the mixed case. -/
theorem unsafe_pattern_rejected_witness :
    (montyEvaluate (mkEvaluator []) "1 + imPort").1 =
      .error (.unsafePattern "import") := by
  obtain ⟨t, -, -, he⟩ := unsafe_pattern_rejected montyLib (mkEvaluator [])
    "1 + imPort" "import" (by decide) (by decide) (by decide)
  have ht : SMErr.unsafePattern t = SMErr.unsafePattern "import" := by
    have hcomp : (SafeMathEvaluator.evaluate montyLib (mkEvaluator [])
        "1 + imPort").1 = .error (.unsafePattern "import") := rfl
    rw [he] at hcomp
    exact Except.error.inj hcomp
  show (SafeMathEvaluator.evaluate montyLib (mkEvaluator []) "1 + imPort").1 =
    .error (.unsafePattern "import")
  rw [he, ht]

/-- Counterexample for C1 as frozen: a 1001-character expression containing
`import` as a whole token is rejected as too long, not as an unsafe
pattern — the length pre-check runs first. -/
theorem unsafe_pattern_rejected_counterexample :
    "import" ∈ CLAIM_DENYLIST ∧
    hasWholeToken "import".toList
      (lowerChars (String.mk ("import".toList ++ List.replicate 995 ' ')).toList) = true ∧
    (String.mk ("import".toList ++ List.replicate 995 ' ')).toList.length = 1001 ∧
    (montyEvaluate (mkEvaluator [])
      (String.mk ("import".toList ++ List.replicate 995 ' '))).1 = .error .tooLong ∧
    SMErr.tooLong ≠ SMErr.unsafePattern "import" := by
  refine ⟨by decide, by decide, by decide, rfl, by decide⟩

/-! ## Claim C2 — oversized trailing exponents are rejected early -/

theorem digit_toLower {c : Char} (h : c.isDigit = true) : c.toLower = c := by
  simp only [Char.isDigit, Bool.and_eq_true, decide_eq_true_eq,
    UInt32.le_def, BitVec.le_def] at h
  unfold Char.toLower
  rw [if_neg]
  simp only [Char.toNat, UInt32.toNat]
  have h48 : (UInt32.toBitVec 48).toNat = 48 := rfl
  have h57 : (UInt32.toBitVec 57).toNat = 57 := rfl
  omega

theorem digit_not_alpha {c : Char} (h : c.isDigit = true) : c.isAlpha = false := by
  simp only [Char.isDigit, Bool.and_eq_true, decide_eq_true_eq,
    UInt32.le_def, BitVec.le_def] at h
  cases hu : c.isAlpha with
  | false => rfl
  | true =>
    exfalso
    simp only [Char.isAlpha, Char.isUpper, Char.isLower, Bool.or_eq_true,
      Bool.and_eq_true, decide_eq_true_eq, UInt32.le_def, BitVec.le_def] at hu
    have h48 : (UInt32.toBitVec 48).toNat = 48 := rfl
    have h57 : (UInt32.toBitVec 57).toNat = 57 := rfl
    have h65 : (UInt32.toBitVec 65).toNat = 65 := rfl
    have h90 : (UInt32.toBitVec 90).toNat = 90 := rfl
    have h97 : (UInt32.toBitVec 97).toNat = 97 := rfl
    have h122 : (UInt32.toBitVec 122).toNat = 122 := rfl
    rcases hu with ⟨hu1, hu2⟩ | ⟨hu1, hu2⟩ <;> omega

theorem digit_ne {c x : Char} (h : c.isDigit = true) (hx : x.isDigit = false) :
    c ≠ x := by
  intro he
  rw [he, hx] at h
  cases h

theorem digit_not_space {c : Char} (h : c.isDigit = true) :
    isPySpace c = false :=
  isWordChar_not_space (by simp [isWordChar, h])

theorem cons_headD_tail {α : Type} {l : List α} (h : l ≠ []) (d : α) :
    l = l.headD d :: l.tail := by
  cases l with
  | nil => exact absurd rfl h
  | cons a as => rfl

theorem ftE_cons_ne_star {c : Char} {l : List Char} (h : ¬ c = '*') :
    SafeMathEvaluator.findTrailingExponent (c :: l) =
      SafeMathEvaluator.findTrailingExponent l := by
  simp only [SafeMathEvaluator.findTrailingExponent]
  rw [if_neg h]

theorem ftE_digits_prefix {ds : List Char} (l : List Char)
    (h : ∀ d ∈ ds, d.isDigit = true) :
    SafeMathEvaluator.findTrailingExponent (ds ++ l) =
      SafeMathEvaluator.findTrailingExponent l := by
  induction ds with
  | nil => rfl
  | cons d ds' ih =>
    rw [List.cons_append,
      ftE_cons_ne_star (digit_ne (h d (List.mem_cons_self d ds')) (by decide)),
      ih fun d' hd' => h d' (List.mem_cons_of_mem d hd')]

theorem parseExpTail_spec (sgn es : List Char)
    (hsgn : sgn = [] ∨ sgn = ['+'] ∨ sgn = ['-'])
    (hes : es ≠ []) (hed : ∀ d ∈ es, d.isDigit = true) :
    SafeMathEvaluator.parseExpTail (' ' :: (sgn ++ es)) =
      some ((if sgn = ['-'] then -1 else 1) * (digitsVal es : Int)) := by
  obtain ⟨e₀, tail, rfl⟩ : ∃ e₀ tail, es = e₀ :: tail := by
    cases es with
    | nil => exact absurd rfl hes
    | cons a b => exact ⟨a, b, rfl⟩
  have he₀ : e₀.isDigit = true := hed e₀ (List.mem_cons_self e₀ tail)
  have htw : (e₀ :: tail).takeWhile Char.isDigit = e₀ :: tail :=
    List.takeWhile_eq_self_iff.mpr hed
  have hdw : (e₀ :: tail).dropWhile Char.isDigit = [] :=
    List.dropWhile_eq_nil_iff.mpr hed
  have hplus : e₀ ≠ '+' := digit_ne he₀ (by decide)
  have hminus : e₀ ≠ '-' := digit_ne he₀ (by decide)
  simp only [SafeMathEvaluator.parseExpTail]
  rw [List.dropWhile_cons_of_pos (by decide)]
  rcases hsgn with rfl | rfl | rfl
  · rw [List.nil_append,
      List.dropWhile_cons_of_neg (by rw [digit_not_space he₀]; decide)]
    simp [htw, hdw, hplus, hminus]
  · rw [List.cons_append, List.nil_append,
      List.dropWhile_cons_of_neg (by decide)]
    simp [htw, hdw]
  · rw [List.cons_append, List.nil_append,
      List.dropWhile_cons_of_neg (by decide)]
    simp [htw, hdw]

/-- C2 (amended): for every expression of the form `n ** e` — `n` a
non-empty digit string, `e` an optionally signed integer literal with
`|e| > 100` — whose total length is at most 1000, `evaluate` fails with the
exponent-too-large error on every interpreter, so before any compilation or
sandboxed evaluation.  (The original claim, with no length bound, fails on
over-long inputs: see the counterexample.) -/
theorem exponent_too_large_rejected {M : Type} (lib : MontyLib M)
    (st : EvalState M) (ds sgn es : List Char)
    (hds : ds ≠ []) (hdd : ∀ d ∈ ds, d.isDigit = true)
    (hsgn : sgn = [] ∨ sgn = ['+'] ∨ sgn = ['-'])
    (hes : es ≠ []) (hed : ∀ d ∈ es, d.isDigit = true)
    (hbig : digitsVal es > 100)
    (hlen : (ds ++ (' ' :: '*' :: '*' :: ' ' :: (sgn ++ es))).length ≤ 1000) :
    (SafeMathEvaluator.evaluate lib st
      (String.mk (ds ++ (' ' :: '*' :: '*' :: ' ' :: (sgn ++ es))))).1 =
      .error .exponentTooLarge := by
  set L := ds ++ (' ' :: '*' :: '*' :: ' ' :: (sgn ++ es)) with hL
  have hLs : (String.mk L).toList = L := rfl
  have hchar : ∀ d ∈ L, d.isDigit = true ∨ d = ' ' ∨ d = '*' ∨ d = '+' ∨ d = '-' := by
    intro d hd
    rw [hL] at hd
    rcases List.mem_append.mp hd with h | h
    · exact Or.inl (hdd d h)
    · simp only [List.mem_cons] at h
      rcases h with rfl | rfl | rfl | rfl | h
      · exact Or.inr (Or.inl rfl)
      · exact Or.inr (Or.inr (Or.inl rfl))
      · exact Or.inr (Or.inr (Or.inl rfl))
      · exact Or.inr (Or.inl rfl)
      · rcases List.mem_append.mp h with h' | h'
        · rcases hsgn with rfl | rfl | rfl
          · cases h'
          · rcases List.mem_singleton.mp h' with rfl
            exact Or.inr (Or.inr (Or.inr (Or.inl rfl)))
          · rcases List.mem_singleton.mp h' with rfl
            exact Or.inr (Or.inr (Or.inr (Or.inr rfl)))
        · exact Or.inl (hed d h')
  have hlow : ∀ c ∈ lowerChars L, c.isAlpha = false ∧ c ≠ '_' := by
    intro c hc
    obtain ⟨d, hd, rfl⟩ := List.mem_map.mp hc
    rcases hchar d hd with hdig | rfl | rfl | rfl | rfl
    · rw [digit_toLower hdig]
      exact ⟨digit_not_alpha hdig, digit_ne hdig (by decide)⟩
    all_goals exact ⟨by decide, by decide⟩
  have hletter : ∀ (tok : List Char),
      (∃ c₀ rest, tok = c₀ :: rest ∧ c₀.isAlpha = true) →
      hasWholeToken tok (lowerChars L) = false := by
    rintro tok ⟨c₀, rest, rfl, ha⟩
    cases hw : hasWholeToken (c₀ :: rest) (lowerChars L) with
    | false => rfl
    | true =>
      exfalso
      have hmem : c₀ ∈ lowerChars L :=
        containsSub_head_mem (containsSub_of_hasWholeToken hw)
      rw [(hlow c₀ hmem).1] at ha
      cases ha
  have hnsub : containsSub ['_', '_'] (lowerChars L) = false := by
    cases hs : containsSub ['_', '_'] (lowerChars L) with
    | false => rfl
    | true =>
      exfalso
      exact absurd rfl (hlow '_' (containsSub_head_mem hs)).2
  have hblocked : ∀ tok ∈ SafeMathEvaluator.BLOCKED_TOKENS,
      (tok.toList.headD ' ').isAlpha = true ∧ tok.toList ≠ [] := by decide
  have hkeywords : ∀ kw ∈ SafeMathEvaluator.BLOCKED_CONTROL_FLOW_KEYWORDS,
      (kw.toList.headD ' ').isAlpha = true ∧ kw.toList ≠ [] := by decide
  have hfindnone : SafeMathEvaluator.find_blocked_pattern (String.mk L) = none := by
    unfold SafeMathEvaluator.find_blocked_pattern
    rw [hLs, if_neg (by rw [hnsub]; exact Bool.false_ne_true)]
    rw [List.findSome?_eq_none_iff]
    intro tok htok
    obtain ⟨ha, hne'⟩ := hblocked tok htok
    rw [if_neg]
    intro htrue
    rw [cons_headD_tail hne' ' '] at htrue
    rw [hletter _ ⟨_, _, rfl, ha⟩] at htrue
    cases htrue
  have hctrl : SafeMathEvaluator.contains_blocked_control_flow (String.mk L) = false := by
    unfold SafeMathEvaluator.contains_blocked_control_flow
    cases hs : SafeMathEvaluator.BLOCKED_CONTROL_FLOW_KEYWORDS.any
        (fun kw => hasWholeToken kw.toList (lowerChars (String.mk L).toList)) with
    | false => rfl
    | true =>
      exfalso
      obtain ⟨kw, hkw, hp⟩ := List.any_eq_true.mp hs
      obtain ⟨ha, hne'⟩ := hkeywords kw hkw
      rw [hLs] at hp
      rw [cons_headD_tail hne' ' '] at hp
      rw [hletter _ ⟨_, _, rfl, ha⟩] at hp
      cases hp
  have hfte : SafeMathEvaluator.findTrailingExponent L =
      some ((if sgn = ['-'] then -1 else 1) * (digitsVal es : Int)) := by
    rw [hL, ftE_digits_prefix _ hdd, ftE_cons_ne_star (by decide)]
    show (match SafeMathEvaluator.parseExpTail (' ' :: (sgn ++ es)) with
      | some e => some e
      | none => SafeMathEvaluator.findTrailingExponent ('*' :: ' ' :: (sgn ++ es))) =
      some ((if sgn = ['-'] then -1 else 1) * (digitsVal es : Int))
    rw [parseExpTail_spec sgn es hsgn hes hed]
  have hnat : ((if sgn = ['-'] then (-1 : Int) else 1) * (digitsVal es : Int)).natAbs =
      digitsVal es := by
    split <;> simp [Int.natAbs_mul]
  have hne : pyStrip L ≠ [] := by
    obtain ⟨d₀, dt, rfl⟩ : ∃ d₀ dt, ds = d₀ :: dt := by
      cases ds with
      | nil => exact absurd rfl hds
      | cons a b => exact ⟨a, b, rfl⟩
    have hmem : d₀ ∈ L := by
      rw [hL]
      exact List.mem_append_left _ (List.mem_cons_self d₀ dt)
    exact pyStrip_ne_nil_of_mem hmem
      (digit_not_space (hdd d₀ (List.mem_cons_self d₀ dt)))
  have hlen' : ¬ L.length > SafeMathEvaluator.MAX_STRING_LENGTH := by
    simp only [SafeMathEvaluator.MAX_STRING_LENGTH]
    omega
  have hpre : SafeMathEvaluator.prechecks (String.mk L) = some .exponentTooLarge := by
    unfold SafeMathEvaluator.prechecks
    rw [hLs, if_neg hne, if_neg hlen']
    simp only [hfindnone, hctrl, Bool.false_eq_true, if_false, hfte, hnat]
    rw [if_pos hbig]
  unfold SafeMathEvaluator.evaluate
  rw [hpre]

/-- Witness for C2: `2 ** 101` is rejected as exponent-too-large. -/
theorem exponent_too_large_rejected_witness :
    (montyEvaluate (mkEvaluator [])
      (String.mk ("2".toList ++ (' ' :: '*' :: '*' :: ' ' :: ([] ++ "101".toList))))).1 =
      .error .exponentTooLarge :=
  exponent_too_large_rejected montyLib (mkEvaluator []) "2".toList [] "101".toList
    (by decide) (by decide) (Or.inl rfl) (by decide) (by decide) (by decide) (by decide)

/-- Counterexample for C2 as frozen: a 1004-character `n ** 101` is
rejected as too long, not as exponent-too-large — the length pre-check runs
first. -/
theorem exponent_too_large_rejected_counterexample :
    SafeMathEvaluator.findTrailingExponent
      (String.mk (List.replicate 997 '1' ++ " ** 101".toList)).toList = some 101 ∧
    ((101 : Int).natAbs > 100) ∧
    (String.mk (List.replicate 997 '1' ++ " ** 101".toList)).toList.length = 1004 ∧
    (montyEvaluate (mkEvaluator [])
      (String.mk (List.replicate 997 '1' ++ " ** 101".toList))).1 = .error .tooLong ∧
    SMErr.tooLong ≠ SMErr.exponentTooLarge := by
  refine ⟨by decide, by decide, by decide, rfl, by decide⟩

end KidShell
